import Mathlib

/-!
Verification of the payment-gateway bank core (authorize / capture / void /
refund lifecycle) against a shallow embedding of its Go sources.

The embedding models:
* the validators (`bank/internal/service` validators file),
* the account and transaction stores (`bank/internal/repository/account.go`
  and the `transactions` schema with its partial unique index),
* the four payment services (`performAuthorization`, `performCapture`,
  `performVoid`, `performRefund`) and the GET lookups,
* the HTTP error mapping (`handlers`) and the idempotency middleware.

Time is passed explicitly as a `Clock`; UUIDs are modelled as natural
numbers supplied by the caller; fallible repository calls return `Except`.
-/

namespace Bank

/-- A wall-clock instant: `now` is a timestamp (arbitrary fixed unit with
3600 units per hour), `month`/`year` are the calendar fields that
`time.Now().Month()/Year()` expose to `ValidateExpiry`. -/
structure Clock where
  now : Int
  month : Int
  year : Int
deriving Repr, DecidableEq

/-- `models.Account`: a customer card record (`accounts` table row). -/
structure Account where
  accountNumber : String
  cvv : String
  expiryMonth : Int
  expiryYear : Int
  balanceCents : Int
  availableBalanceCents : Int
  id : Nat
deriving Repr, DecidableEq

/-- `models.TransactionType`. -/
inductive TxnType where
  | authHold
  | capture
  | void
  | refund
deriving Repr, DecidableEq

/-- `models.TransactionStatus`. -/
inductive TxnStatus where
  | active
  | completed
  | expired
deriving Repr, DecidableEq

/-- `models.Transaction`: one ledger row of the `transactions` table.
`CreatedAt` and `Metadata` are not modelled (no claim mentions them). -/
structure Txn where
  id : Nat
  accountId : Nat
  type : TxnType
  amountCents : Int
  currency : String
  referenceId : Option Nat
  status : TxnStatus
  expiresAt : Option Int
deriving Repr, DecidableEq

/-- The relational store: the `accounts` and `transactions` tables. -/
structure DBState where
  accounts : List Account
  transactions : List Txn
deriving Repr, DecidableEq

/-! ## Validators (pure functions from the service package) -/

/-- The digit-stripping loop at the top of `ValidateLuhn`: keep the decimal
digits of the input, in order. -/
def digitsOf (s : String) : List Nat :=
  s.data.filterMap fun c =>
    if '0' ≤ c ∧ c ≤ '9' then some (c.toNat - '0'.toNat) else none

/-- One doubled digit in the Luhn loop: `digit *= 2; if digit > 9 { digit -= 9 }`. -/
def luhnDouble (d : Nat) : Nat :=
  let x := d * 2
  if x > 9 then x - 9 else x

/-- The Luhn summation loop over the digits in right-to-left order, carrying
the `isSecond` flag (which starts `false` at the rightmost digit). -/
def luhnSumAux : List Nat → Bool → Nat
  | [], _ => 0
  | d :: rest, isSecond =>
    (if isSecond then luhnDouble d else d) + luhnSumAux rest (!isSecond)

/-- `ValidateLuhn`: strips to digits, requires 13–19 digits, then checks the
Luhn checksum. `true` means the card number passes. -/
def ValidateLuhn (cardNumber : String) : Bool :=
  let digits := digitsOf cardNumber
  if digits.length < 13 ∨ digits.length > 19 then false
  else luhnSumAux digits.reverse false % 10 == 0

/-- `ValidateExpiry`: month must be in [1,12]; the card is expired when the
expiry year is past, or equal to the current year with an earlier month. -/
def ValidateExpiry (expiryMonth expiryYear : Int) (clk : Clock) : Bool :=
  if expiryMonth < 1 ∨ expiryMonth > 12 then false
  else if expiryYear < clk.year then false
  else if expiryYear = clk.year ∧ expiryMonth < clk.month then false
  else true

/-- `ValidateCVV`: 3 or 4 characters, all decimal digits. -/
def ValidateCVV (cvv : String) : Bool :=
  if cvv.length < 3 ∨ cvv.length > 4 then false
  else cvv.data.all fun c => decide ('0' ≤ c ∧ c ≤ '9')

/-- `ValidateAmount`: the amount must be strictly positive. -/
def ValidateAmount (amount : Int) : Bool :=
  if amount ≤ 0 then false else true

/-- `AUTH_EXPIRY_HOURS` default from the configuration loader
(`getEnvAsInt("AUTH_EXPIRY_HOURS", 168)`). -/
def defaultAuthExpiryHours : Int := 168

/-- Units per hour used to turn `authExpiryHours` into a timestamp offset
(`time.Duration(hours) * time.Hour`). -/
def hourUnits : Int := 3600

/-! ## Error codes (service package constants and `GetRefund`'s literal) -/

/-- The service error codes (`ErrCode*` constants, plus the literal
`"refund_not_found"` used by `GetRefund`). -/
inductive ErrCode where
  | invalidCard
  | invalidCVV
  | invalidAmount
  | cardExpired
  | insufficientFunds
  | accountNotFound
  | authorizationNotFound
  | authorizationExpired
  | authorizationAlreadyUsed
  | alreadyCaptured
  | alreadyVoided
  | alreadyRefunded
  | amountMismatch
  | captureNotFound
  | refundNotFound
  | internalError
deriving Repr, DecidableEq

/-- The wire string of each service error code. -/
def errCodeString : ErrCode → String
  | .invalidCard => "invalid_card"
  | .invalidCVV => "invalid_cvv"
  | .invalidAmount => "invalid_amount"
  | .cardExpired => "card_expired"
  | .insufficientFunds => "insufficient_funds"
  | .accountNotFound => "account_not_found"
  | .authorizationNotFound => "authorization_not_found"
  | .authorizationExpired => "authorization_expired"
  | .authorizationAlreadyUsed => "authorization_already_used"
  | .alreadyCaptured => "already_captured"
  | .alreadyVoided => "already_voided"
  | .alreadyRefunded => "already_refunded"
  | .amountMismatch => "amount_mismatch"
  | .captureNotFound => "capture_not_found"
  | .refundNotFound => "refund_not_found"
  | .internalError => "internal_error"

/-- An error value flowing out of a service call: either a typed
`*ServiceError` carrying a code, or a plain wrapped error with no
`ServiceError` in its chain (the `fmt.Errorf("...: %w", err)` cases). -/
inductive SvcError where
  | typed (code : ErrCode)
  | wrapped
deriving Repr, DecidableEq

/-! ## Repository operations

The Go transaction-repository implementation file is not in the source
tree (only its interface, mocks and the SQL migration are), so the lookup
and insert semantics below the service layer follow the migration's schema
and spec §4.3. -/

/-- `TransactionRepository.FindByID` / `FindByIDForUpdate`: the row of the
`transactions` table with the given primary key. -/
def findTransactionByID (s : DBState) (id : Nat) : Option Txn :=
  s.transactions.find? fun t => t.id == id

/-- `AccountRepository.FindByAccountNumber(ForUpdate)`: the accounts row
with the given card number. -/
def findAccountByNumber (s : DBState) (num : String) : Option Account :=
  s.accounts.find? fun a => a.accountNumber == num

/-- `TransactionRepository.FindByReferenceID`: a row with the given
`reference_id` and type, or `none`. -/
def findByReferenceID (s : DBState) (ref : Nat) (ty : TxnType) : Option Txn :=
  s.transactions.find? fun t => t.referenceId == some ref && t.type == ty

/-- The insert errors of the transactions table: the partial unique index
`idx_transactions_reference_type_unique` (surfaced by the repository as
`models.ErrDuplicateTransaction`), and the primary-key constraint on `id`
(surfaced as an ordinary database error). -/
inductive CreateError where
  | duplicateTransaction
  | primaryKeyViolation
deriving Repr, DecidableEq

/-- Whether a transaction type participates in the partial unique index on
`(reference_id, type)` (`type IN ('CAPTURE','VOID','REFUND')`). -/
def requiresReferenceUnique : TxnType → Bool
  | .capture => true
  | .void => true
  | .refund => true
  | .authHold => false

/-- Modelled from the spec: `TransactionRepository.Create` (the Go
implementation is not in the source tree). Inserts the row; a conflict on
the `(reference_id, type)` partial unique index of the migration yields
`DuplicateTransaction` (spec §4.3); a conflict on the `id` primary key is
an ordinary insert failure. -/
def createTransaction (s : DBState) (t : Txn) : Except CreateError DBState :=
  if s.transactions.any fun u => u.id == t.id then
    .error .primaryKeyViolation
  else if requiresReferenceUnique t.type &&
      (match t.referenceId with
       | some r => s.transactions.any fun u => u.referenceId == some r && u.type == t.type
       | none => false) then
    .error .duplicateTransaction
  else
    .ok { s with transactions := s.transactions ++ [t] }

/-- The row effect of `AdjustBalances`'s UPDATE on one accounts row: add
both deltas when the `id` matches, leave the row alone otherwise. -/
def adjustAccount (accountId : Nat) (balanceDelta availableDelta : Int) (a : Account) :
    Account :=
  if a.id == accountId then
    { a with balanceCents := a.balanceCents + balanceDelta,
             availableBalanceCents := a.availableBalanceCents + availableDelta }
  else a

/-- The row mapping of `AdjustBalances`'s UPDATE: add both deltas to every
accounts row whose `id` matches. -/
def adjustList (l : List Account) (accountId : Nat) (balanceDelta availableDelta : Int) :
    List Account :=
  l.map (adjustAccount accountId balanceDelta availableDelta)

/-- `AccountRepository.AdjustBalances`: one UPDATE applying both deltas;
`rowsAffected == 0` (no account with that id) is an error. -/
def adjustBalances (s : DBState) (accountId : Nat) (balanceDelta availableDelta : Int) :
    Except Unit DBState :=
  if s.accounts.any fun a => a.id == accountId then
    .ok { s with accounts := adjustList s.accounts accountId balanceDelta availableDelta }
  else
    .error ()

/-- The row effect of `UpdateStatus` on one transactions row: set the
status when the `id` matches. -/
def setStatusRow (id : Nat) (st : TxnStatus) (t : Txn) : Txn :=
  if t.id == id then { t with status := st } else t

/-- Modelled from the spec: `TransactionRepository.UpdateStatus` (the Go
implementation is not in the source tree): set the status of the rows with
the given id (spec §4.3 `update_status(id, new_status)`). -/
def updateStatus (s : DBState) (id : Nat) (st : TxnStatus) : DBState :=
  { s with transactions := s.transactions.map (setStatusRow id st) }

/-! ## Payment services -/

/-- `validateAuthorizationRequest`: Luhn failure maps to `invalid_card`,
CVV format failure to `invalid_cvv`, non-positive amount to
`invalid_amount`. -/
def validateAuthorizationRequest (cardNumber cvv : String) (amount : Int) : Option ErrCode :=
  if ¬ ValidateLuhn cardNumber then some .invalidCard
  else if ¬ ValidateCVV cvv then some .invalidCVV
  else if ¬ ValidateAmount amount then some .invalidAmount
  else none

/-- `performAuthorization`: lock the account row by card number (missing →
`invalid_card`), check CVV, expiry and available funds, insert the
AUTH_HOLD and apply balance deltas (0, −amount). `newId` is the UUID drawn
for the new row. -/
def performAuthorization (s : DBState) (clk : Clock) (authExpiryHours : Int) (newId : Nat)
    (cardNumber cvv : String) (amount : Int) : Except SvcError (Txn × DBState) :=
  match findAccountByNumber s cardNumber with
  | none => .error (.typed .invalidCard)
  | some account =>
    if account.cvv ≠ cvv then .error (.typed .invalidCVV)
    else if ¬ ValidateExpiry account.expiryMonth account.expiryYear clk then
      .error (.typed .cardExpired)
    else if account.availableBalanceCents < amount then .error (.typed .insufficientFunds)
    else
      let authTx : Txn :=
        { id := newId, accountId := account.id, type := .authHold, amountCents := amount,
          currency := "USD", referenceId := none, status := .active,
          expiresAt := some (clk.now + authExpiryHours * hourUnits) }
      match createTransaction s authTx with
      | .error _ => .error (.typed .internalError)
      | .ok s₁ =>
        match adjustBalances s₁ account.id 0 (-amount) with
        | .error _ => .error (.typed .internalError)
        | .ok s₂ => .ok (authTx, s₂)

/-- `Authorize`: input validation followed by `performAuthorization` inside
one transaction. -/
def Authorize (s : DBState) (clk : Clock) (authExpiryHours : Int) (newId : Nat)
    (cardNumber cvv : String) (amount : Int) : Except SvcError (Txn × DBState) :=
  match validateAuthorizationRequest cardNumber cvv amount with
  | some code => .error (.typed code)
  | none => performAuthorization s clk authExpiryHours newId cardNumber cvv amount

/-- The expiry guard of `performCapture`:
`authTxn.ExpiresAt != nil && time.Now().After(*authTxn.ExpiresAt)`. -/
def holdExpired (expiresAt : Option Int) (clk : Clock) : Bool :=
  match expiresAt with
  | some e => clk.now > e
  | none => false

/-- `performCapture`: lock the AUTH_HOLD by id, check type, status, expiry
and amount, insert the CAPTURE (duplicate → `already_captured`), complete
the hold and apply balance deltas (−amount, 0). -/
def performCapture (s : DBState) (clk : Clock) (newId : Nat) (authorizationId : Nat)
    (amount : Int) : Except SvcError (Txn × DBState) :=
  match findTransactionByID s authorizationId with
  | none => .error (.typed .authorizationNotFound)
  | some authTxn =>
    if authTxn.type ≠ .authHold then .error (.typed .authorizationNotFound)
    else if authTxn.status ≠ .active then .error (.typed .authorizationAlreadyUsed)
    else if holdExpired authTxn.expiresAt clk then .error (.typed .authorizationExpired)
    else if amount ≠ authTxn.amountCents then .error (.typed .amountMismatch)
    else
      let captureTxn : Txn :=
        { id := newId, accountId := authTxn.accountId, type := .capture, amountCents := amount,
          currency := authTxn.currency, referenceId := some authorizationId,
          status := .completed, expiresAt := none }
      match createTransaction s captureTxn with
      | .error .duplicateTransaction => .error (.typed .alreadyCaptured)
      | .error .primaryKeyViolation => .error .wrapped
      | .ok s₁ =>
        let s₂ := updateStatus s₁ authorizationId .completed
        match adjustBalances s₂ authTxn.accountId (-amount) 0 with
        | .error _ => .error (.typed .internalError)
        | .ok s₃ => .ok (captureTxn, s₃)

/-- `performVoid`: lock the AUTH_HOLD by id, check type and status, guard
against an existing CAPTURE child, insert the VOID (duplicate →
`already_voided`), complete the hold and apply deltas (0, +amount). -/
def performVoid (s : DBState) (newId : Nat) (authorizationId : Nat) :
    Except SvcError (Txn × DBState) :=
  match findTransactionByID s authorizationId with
  | none => .error (.typed .authorizationNotFound)
  | some authTxn =>
    if authTxn.type ≠ .authHold then .error (.typed .authorizationNotFound)
    else if authTxn.status ≠ .active then .error (.typed .authorizationAlreadyUsed)
    else
      match findByReferenceID s authorizationId .capture with
      | some _ => .error (.typed .alreadyCaptured)
      | none =>
        let voidTxn : Txn :=
          { id := newId, accountId := authTxn.accountId, type := .void,
            amountCents := authTxn.amountCents, currency := authTxn.currency,
            referenceId := some authorizationId, status := .completed, expiresAt := none }
        match createTransaction s voidTxn with
        | .error .duplicateTransaction => .error (.typed .alreadyVoided)
        | .error .primaryKeyViolation => .error .wrapped
        | .ok s₁ =>
          let s₂ := updateStatus s₁ authorizationId .completed
          match adjustBalances s₂ authTxn.accountId 0 authTxn.amountCents with
          | .error _ => .error (.typed .internalError)
          | .ok s₃ => .ok (voidTxn, s₃)

/-- `performRefund`: lock the CAPTURE by id, check type and COMPLETED
status (both failures → `capture_not_found`), check the amount, insert the
REFUND (duplicate → `already_refunded`) and apply deltas
(+amount, +amount). -/
def performRefund (s : DBState) (newId : Nat) (captureId : Nat) (amount : Int) :
    Except SvcError (Txn × DBState) :=
  match findTransactionByID s captureId with
  | none => .error (.typed .captureNotFound)
  | some captureTxn =>
    if captureTxn.type ≠ .capture then .error (.typed .captureNotFound)
    else if captureTxn.status ≠ .completed then .error (.typed .captureNotFound)
    else if amount ≠ captureTxn.amountCents then .error (.typed .amountMismatch)
    else
      let refundTxn : Txn :=
        { id := newId, accountId := captureTxn.accountId, type := .refund,
          amountCents := amount, currency := captureTxn.currency,
          referenceId := some captureId, status := .completed, expiresAt := none }
      match createTransaction s refundTxn with
      | .error .duplicateTransaction => .error (.typed .alreadyRefunded)
      | .error .primaryKeyViolation => .error .wrapped
      | .ok s₁ =>
        match adjustBalances s₁ captureTxn.accountId amount amount with
        | .error _ => .error (.typed .internalError)
        | .ok s₂ => .ok (refundTxn, s₂)

/-- `GetAuthorization`: lookup by id; a missing row or a row whose type is
not AUTH_HOLD yields `authorization_not_found`. -/
def GetAuthorization (s : DBState) (authId : Nat) : Except ErrCode Txn :=
  match findTransactionByID s authId with
  | none => .error .authorizationNotFound
  | some txn =>
    if txn.type ≠ .authHold then .error .authorizationNotFound else .ok txn

/-- `GetCapture`: lookup by id; a missing row or a row whose type is not
CAPTURE yields `capture_not_found`. -/
def GetCapture (s : DBState) (captureId : Nat) : Except ErrCode Txn :=
  match findTransactionByID s captureId with
  | none => .error .captureNotFound
  | some txn =>
    if txn.type ≠ .capture then .error .captureNotFound else .ok txn

/-- `GetRefund`: lookup by id; a missing row or a row whose type is not
REFUND yields the literal code `refund_not_found`. -/
def GetRefund (s : DBState) (refundId : Nat) : Except ErrCode Txn :=
  match findTransactionByID s refundId with
  | none => .error .refundNotFound
  | some txn =>
    if txn.type ≠ .refund then .error .refundNotFound else .ok txn

/-! ## HTTP layer: service-error → HTTP mapping

The generated `api` package is not in the source tree; its `ErrorCode*`
constants are taken to be the wire strings of spec §7. -/

/-- `mapServiceErrorToCode`: the switch in the handlers' helpers file.
Codes without a case (`account_not_found`, `refund_not_found`,
`internal_error`) fall through to `internal_error`. -/
def mapServiceErrorToCode : ErrCode → String
  | .invalidCard => "invalid_card"
  | .invalidCVV => "invalid_cvv"
  | .invalidAmount => "invalid_amount"
  | .cardExpired => "card_expired"
  | .insufficientFunds => "insufficient_funds"
  | .authorizationNotFound => "authorization_not_found"
  | .authorizationExpired => "authorization_expired"
  | .authorizationAlreadyUsed => "authorization_already_used"
  | .alreadyCaptured => "already_captured"
  | .alreadyVoided => "already_voided"
  | .alreadyRefunded => "already_refunded"
  | .amountMismatch => "amount_mismatch"
  | .captureNotFound => "capture_not_found"
  | .accountNotFound => "internal_error"
  | .refundNotFound => "internal_error"
  | .internalError => "internal_error"

/-- `isPaymentRequiredError`: only `insufficient_funds` maps to 402. -/
def isPaymentRequiredError (code : ErrCode) : Bool :=
  code == .insufficientFunds

/-- `handleAuthorizationError`: a non-`ServiceError` is logged and becomes
500 `internal_error`; a typed error becomes 402 when payment-required,
else 400, with the mapped code. Returns (HTTP status, emitted code). -/
def handleAuthorizationError : SvcError → Nat × String
  | .wrapped => (500, "internal_error")
  | .typed c =>
    if isPaymentRequiredError c then (402, mapServiceErrorToCode c)
    else (400, mapServiceErrorToCode c)

/-- `handleCaptureError`: a non-`ServiceError` becomes 500
`internal_error`; every typed error becomes 400 with the mapped code. -/
def handleCaptureError : SvcError → Nat × String
  | .wrapped => (500, "internal_error")
  | .typed c => (400, mapServiceErrorToCode c)

/-- `handleVoidError`: same shape as `handleCaptureError`. -/
def handleVoidError : SvcError → Nat × String
  | .wrapped => (500, "internal_error")
  | .typed c => (400, mapServiceErrorToCode c)

/-- `handleRefundError`: same shape as `handleCaptureError`. -/
def handleRefundError : SvcError → Nat × String
  | .wrapped => (500, "internal_error")
  | .typed c => (400, mapServiceErrorToCode c)

/-- HTTP status of `CreateAuthorization`: 200 on service success, else the
status from `handleAuthorizationError`. -/
def createAuthorizationStatus (r : Except SvcError Txn) : Nat :=
  match r with
  | .ok _ => 200
  | .error e => (handleAuthorizationError e).1

/-- HTTP status of `CreateCapture`: 200 on service success, else the
status from `handleCaptureError`. -/
def createCaptureStatus (r : Except SvcError Txn) : Nat :=
  match r with
  | .ok _ => 200
  | .error e => (handleCaptureError e).1

/-- HTTP status of `CreateVoid`: 200 on service success, else the status
from `handleVoidError`. -/
def createVoidStatus (r : Except SvcError Txn) : Nat :=
  match r with
  | .ok _ => 200
  | .error e => (handleVoidError e).1

/-- HTTP status of `CreateRefund`: 200 on service success, else the status
from `handleRefundError`. -/
def createRefundStatus (r : Except SvcError Txn) : Nat :=
  match r with
  | .ok _ => 200
  | .error e => (handleRefundError e).1

/-! ## Idempotency middleware -/

/-- `models.IdempotencyKey`: one cached response row. -/
structure IdemRecord where
  key : String
  requestPath : String
  responseStatus : Nat
  responseBody : String
deriving Repr, DecidableEq

/-- The request fields the middleware inspects: method, URL path, and the
`Idempotency-Key` header (`""` when absent, as `Header.Get` returns). -/
structure HttpRequest where
  method : String
  path : String
  idempotencyKey : String
deriving Repr, DecidableEq

/-- A captured HTTP response: status, body, and emitted headers. -/
structure HttpResponse where
  status : Nat
  body : String
  headers : List (String × String)
deriving Repr, DecidableEq

/-- The observable outcome of the middleware around one request: the
response sent, whether the downstream handler ran, and the record passed
to `repo.Store` (`none` when `Store` was not called). -/
structure IdemOutcome where
  response : HttpResponse
  handlerInvoked : Bool
  stored : Option IdemRecord
deriving Repr, DecidableEq

/-- `idempotentPaths`: the four mutating POST paths. -/
def idempotentPaths : List String :=
  ["/api/v1/authorizations", "/api/v1/captures", "/api/v1/voids", "/api/v1/refunds"]

/-- `requiresIdempotency`: POST method and exact match against one of the
four paths. -/
def requiresIdempotency (r : HttpRequest) : Bool :=
  r.method == "POST" && idempotentPaths.contains r.path

/-- `normalizeRequestPath`: `strings.TrimSuffix(urlPath, "/")` — drop one
trailing slash when present. -/
def normalizeRequestPath (urlPath : String) : String :=
  match urlPath.data.getLast? with
  | some '/' => String.mk urlPath.data.dropLast
  | _ => urlPath

/-- `shouldCacheResponse`: cache only statuses in [200, 300). -/
def shouldCacheResponse (statusCode : Nat) : Bool :=
  200 ≤ statusCode && statusCode < 300

/-- The `Idempotency` middleware around one request. `lookup` is the
result of `repo.Get(key, normalized path)` (`.error` models a read
failure); `handlerResp` is what the downstream handler would write;
`storeResult` is the outcome `repo.Store` would return — the code only
logs a store failure, so the value cannot influence the response. -/
def Idempotency (lookup : Except Unit (Option IdemRecord)) (handlerResp : HttpResponse)
    (storeResult : Except Unit Unit) (r : HttpRequest) : IdemOutcome :=
  if ¬ requiresIdempotency r then
    { response := handlerResp, handlerInvoked := true, stored := none }
  else if r.idempotencyKey = "" then
    { response := handlerResp, handlerInvoked := true, stored := none }
  else
    match lookup with
    | .error _ =>
      { response := handlerResp, handlerInvoked := true, stored := none }
    | .ok (some cached) =>
      { response :=
          { status := cached.responseStatus, body := cached.responseBody,
            headers := [("Content-Type", "application/json"),
                        ("X-Idempotent-Replayed", "true")] },
        handlerInvoked := false, stored := none }
    | .ok none =>
      let _ := storeResult
      if shouldCacheResponse handlerResp.status then
        { response := handlerResp, handlerInvoked := true,
          stored := some
            { key := r.idempotencyKey, requestPath := normalizeRequestPath r.path,
              responseStatus := handlerResp.status, responseBody := handlerResp.body } }
      else
        { response := handlerResp, handlerInvoked := true, stored := none }

/-! ## Reachability: the operations as a transition relation -/

/-- One successful money-moving service call, as a relation between
database states. The UUIDs drawn for new rows and the clock are arbitrary
parameters of the step. -/
inductive Step : DBState → DBState → Prop where
  | authorize (s : DBState) (clk : Clock) (hours : Int) (newId : Nat)
      (card cvv : String) (amount : Int) (t : Txn) (s' : DBState) :
      Authorize s clk hours newId card cvv amount = .ok (t, s') → Step s s'
  | capture (s : DBState) (clk : Clock) (newId authId : Nat) (amount : Int)
      (t : Txn) (s' : DBState) :
      performCapture s clk newId authId amount = .ok (t, s') → Step s s'
  | voids (s : DBState) (newId authId : Nat) (t : Txn) (s' : DBState) :
      performVoid s newId authId = .ok (t, s') → Step s s'
  | refund (s : DBState) (newId captureId : Nat) (amount : Int) (t : Txn) (s' : DBState) :
      performRefund s newId captureId amount = .ok (t, s') → Step s s'

/-- Reachability under any sequence of successful operations. -/
def Reachable (s₀ s : DBState) : Prop :=
  Relation.ReflTransGen Step s₀ s

/-! ## Ledger deltas and balance sums -/

/-- The signed posted delta a ledger row represents
(AUTH_HOLD 0, CAPTURE −amount, VOID 0, REFUND +amount). -/
def postedDelta (t : Txn) : Int :=
  match t.type with
  | .authHold => 0
  | .capture => -t.amountCents
  | .void => 0
  | .refund => t.amountCents

/-- The signed available delta a ledger row represents
(AUTH_HOLD −amount, CAPTURE 0, VOID +amount, REFUND +amount). -/
def availableDelta (t : Txn) : Int :=
  match t.type with
  | .authHold => -t.amountCents
  | .capture => 0
  | .void => t.amountCents
  | .refund => t.amountCents

/-- Sum of signed posted deltas across the ledger rows of one account. -/
def ledgerPostedSum (ts : List Txn) (aid : Nat) : Int :=
  ((ts.filter fun t => t.accountId == aid).map postedDelta).sum

/-- Sum of signed available deltas across the ledger rows of one account. -/
def ledgerAvailableSum (ts : List Txn) (aid : Nat) : Int :=
  ((ts.filter fun t => t.accountId == aid).map availableDelta).sum

/-- The posted balance of the account with the given id in an accounts
list (0 if absent). -/
def acctBalance (l : List Account) (aid : Nat) : Int :=
  match l.find? fun a => a.id == aid with
  | some a => a.balanceCents
  | none => 0

/-- The available balance of the account with the given id in an accounts
list (0 if absent). -/
def acctAvailable (l : List Account) (aid : Nat) : Int :=
  match l.find? fun a => a.id == aid with
  | some a => a.availableBalanceCents
  | none => 0

/-- The posted balance of the account with the given id (0 if absent). -/
def balanceOf (s : DBState) (aid : Nat) : Int :=
  acctBalance s.accounts aid

/-- The available balance of the account with the given id (0 if absent). -/
def availableOf (s : DBState) (aid : Nat) : Int :=
  acctAvailable s.accounts aid

/-- Whether a ledger row is an outstanding hold of the given account: an
ACTIVE AUTH_HOLD with that `account_id`. -/
def holdPred (aid : Nat) (t : Txn) : Bool :=
  t.accountId == aid && t.type == .authHold && t.status == .active

/-- Sum of the amounts of the ACTIVE AUTH_HOLD rows of one account: the
outstanding holds. -/
def holdSum (ts : List Txn) (aid : Nat) : Int :=
  ((ts.filter (holdPred aid)).map (·.amountCents)).sum

/-- The part of `holdSum` carried by rows with a given transaction id. -/
def holdSumAt (ts : List Txn) (authId aid : Nat) : Int :=
  ((ts.filter fun t => holdPred aid t && t.id == authId).map (·.amountCents)).sum

/-! ## Helper lemmas: account adjustment -/

theorem adjustAccount_id (X : Nat) (p q : Int) (a : Account) :
    (adjustAccount X p q a).id = a.id := by
  unfold adjustAccount; split <;> rfl

theorem adjustAccount_accountNumber (X : Nat) (p q : Int) (a : Account) :
    (adjustAccount X p q a).accountNumber = a.accountNumber := by
  unfold adjustAccount; split <;> rfl

theorem adjustAccount_zero (X : Nat) (a : Account) :
    adjustAccount X 0 0 a = a := by
  unfold adjustAccount
  split <;> simp

theorem adjustAccount_comp (X : Nat) (p q p' q' : Int) (a : Account) :
    adjustAccount X p' q' (adjustAccount X p q a) = adjustAccount X (p + p') (q + q') a := by
  unfold adjustAccount
  by_cases h : a.id == X <;> simp [h, add_assoc]

theorem adjustList_adjustList (l : List Account) (X : Nat) (p q p' q' : Int) :
    adjustList (adjustList l X p q) X p' q' = adjustList l X (p + p') (q + q') := by
  unfold adjustList
  rw [List.map_map]
  exact List.map_congr_left fun a _ => adjustAccount_comp X p q p' q' a

theorem adjustList_zero (l : List Account) (X : Nat) :
    adjustList l X 0 0 = l := by
  unfold adjustList
  exact List.map_congr_left (fun a _ => adjustAccount_zero X a) |>.trans (List.map_id l)

theorem find?_adjustList (l : List Account) (X : Nat) (p q : Int) (aid : Nat) :
    (adjustList l X p q).find? (fun a => a.id == aid)
      = (l.find? fun a => a.id == aid).map (adjustAccount X p q) := by
  unfold adjustList
  rw [List.find?_map]
  have hp : ((fun a => a.id == aid) ∘ adjustAccount X p q) = fun a : Account => a.id == aid := by
    funext a
    simp [Function.comp, adjustAccount_id]
  rw [hp]

theorem acctBalance_adjustList (l : List Account) (X : Nat) (p q : Int) (aid : Nat) :
    acctBalance (adjustList l X p q) aid
      = acctBalance l aid
        + (if (l.find? fun a => a.id == aid).isSome ∧ aid = X then p else 0) := by
  unfold acctBalance
  rw [find?_adjustList]
  cases hf : l.find? fun a => a.id == aid with
  | none => simp
  | some a =>
    have ha : a.id = aid := by simpa using List.find?_some hf
    by_cases hX : aid = X
    · simp [Option.map_some, adjustAccount, ha, hX]
    · simp [Option.map_some, adjustAccount, ha, hX]

theorem acctAvailable_adjustList (l : List Account) (X : Nat) (p q : Int) (aid : Nat) :
    acctAvailable (adjustList l X p q) aid
      = acctAvailable l aid
        + (if (l.find? fun a => a.id == aid).isSome ∧ aid = X then q else 0) := by
  unfold acctAvailable
  rw [find?_adjustList]
  cases hf : l.find? fun a => a.id == aid with
  | none => simp
  | some a =>
    have ha : a.id = aid := by simpa using List.find?_some hf
    by_cases hX : aid = X
    · simp [Option.map_some, adjustAccount, ha, hX]
    · simp [Option.map_some, adjustAccount, ha, hX]

/-! ## Helper lemmas: ledger sums -/

theorem setStatusRow_accountId (id : Nat) (st : TxnStatus) (t : Txn) :
    (setStatusRow id st t).accountId = t.accountId := by
  unfold setStatusRow; split <;> rfl

theorem setStatusRow_type (id : Nat) (st : TxnStatus) (t : Txn) :
    (setStatusRow id st t).type = t.type := by
  unfold setStatusRow; split <;> rfl

theorem setStatusRow_amountCents (id : Nat) (st : TxnStatus) (t : Txn) :
    (setStatusRow id st t).amountCents = t.amountCents := by
  unfold setStatusRow; split <;> rfl

theorem setStatusRow_id (id : Nat) (st : TxnStatus) (t : Txn) :
    (setStatusRow id st t).id = t.id := by
  unfold setStatusRow; split <;> rfl

theorem postedDelta_setStatusRow (id : Nat) (st : TxnStatus) (t : Txn) :
    postedDelta (setStatusRow id st t) = postedDelta t := by
  unfold postedDelta
  rw [setStatusRow_type, setStatusRow_amountCents]

theorem availableDelta_setStatusRow (id : Nat) (st : TxnStatus) (t : Txn) :
    availableDelta (setStatusRow id st t) = availableDelta t := by
  unfold availableDelta
  rw [setStatusRow_type, setStatusRow_amountCents]

theorem ledgerPostedSum_append (ts : List Txn) (t : Txn) (aid : Nat) :
    ledgerPostedSum (ts ++ [t]) aid
      = ledgerPostedSum ts aid + (if t.accountId == aid then postedDelta t else 0) := by
  unfold ledgerPostedSum
  rw [List.filter_append]
  by_cases h : t.accountId == aid <;>
    simp [h, List.filter_cons, List.sum_append]

theorem ledgerAvailableSum_append (ts : List Txn) (t : Txn) (aid : Nat) :
    ledgerAvailableSum (ts ++ [t]) aid
      = ledgerAvailableSum ts aid + (if t.accountId == aid then availableDelta t else 0) := by
  unfold ledgerAvailableSum
  rw [List.filter_append]
  by_cases h : t.accountId == aid <;>
    simp [h, List.filter_cons, List.sum_append]

theorem ledgerPostedSum_map_setStatusRow (ts : List Txn) (id : Nat) (st : TxnStatus)
    (aid : Nat) :
    ledgerPostedSum (ts.map (setStatusRow id st)) aid = ledgerPostedSum ts aid := by
  induction ts with
  | nil => rfl
  | cons t ts ih =>
    unfold ledgerPostedSum at ih ⊢
    by_cases h : t.accountId == aid <;>
      simp [List.filter_cons, setStatusRow_accountId, h, ih, postedDelta_setStatusRow]

theorem ledgerAvailableSum_map_setStatusRow (ts : List Txn) (id : Nat) (st : TxnStatus)
    (aid : Nat) :
    ledgerAvailableSum (ts.map (setStatusRow id st)) aid = ledgerAvailableSum ts aid := by
  induction ts with
  | nil => rfl
  | cons t ts ih =>
    unfold ledgerAvailableSum at ih ⊢
    by_cases h : t.accountId == aid <;>
      simp [List.filter_cons, setStatusRow_accountId, h, ih, availableDelta_setStatusRow]

/-! ## Inversion lemmas: successful repository calls -/

theorem createTransaction_ok {s : DBState} {t : Txn} {s' : DBState}
    (h : createTransaction s t = .ok s') :
    s' = { s with transactions := s.transactions ++ [t] } ∧
    (s.transactions.any fun u => u.id == t.id) = false ∧
    (requiresReferenceUnique t.type &&
      (match t.referenceId with
       | some r => s.transactions.any fun u => u.referenceId == some r && u.type == t.type
       | none => false)) = false := by
  unfold createTransaction at h
  split at h
  · exact absurd h (by simp)
  · split at h
    · exact absurd h (by simp)
    · rename_i h1 h2
      cases h
      exact ⟨rfl, by simpa using h1, by simpa using h2⟩

theorem adjustBalances_ok {s : DBState} {aid : Nat} {bd ad : Int} {s' : DBState}
    (h : adjustBalances s aid bd ad = .ok s') :
    s' = { s with accounts := adjustList s.accounts aid bd ad } ∧
    (s.accounts.any fun a => a.id == aid) = true := by
  unfold adjustBalances at h
  split at h
  · rename_i h1
    cases h
    exact ⟨rfl, h1⟩
  · exact absurd h (by simp)

/-! ## Inversion lemmas: successful service calls -/

theorem validateAuthorizationRequest_none {card cvv : String} {amount : Int}
    (h : validateAuthorizationRequest card cvv amount = none) :
    ValidateLuhn card = true ∧ ValidateCVV cvv = true ∧ ValidateAmount amount = true := by
  unfold validateAuthorizationRequest at h
  split at h
  · exact absurd h (by simp)
  · split at h
    · exact absurd h (by simp)
    · split at h
      · exact absurd h (by simp)
      · rename_i h1 h2 h3
        exact ⟨by simpa using h1, by simpa using h2, by simpa using h3⟩

theorem Authorize_ok {s : DBState} {clk : Clock} {hours : Int} {n : Nat}
    {card cvv : String} {m : Int} {t : Txn} {s' : DBState}
    (h : Authorize s clk hours n card cvv m = .ok (t, s')) :
    ∃ account,
      findAccountByNumber s card = some account ∧
      ValidateLuhn card = true ∧ ValidateCVV cvv = true ∧ ValidateAmount m = true ∧
      account.cvv = cvv ∧
      ValidateExpiry account.expiryMonth account.expiryYear clk = true ∧
      m ≤ account.availableBalanceCents ∧
      t = { id := n, accountId := account.id, type := .authHold, amountCents := m,
            currency := "USD", referenceId := none, status := .active,
            expiresAt := some (clk.now + hours * hourUnits) } ∧
      (s.transactions.any fun u => u.id == n) = false ∧
      (s.accounts.any fun a => a.id == account.id) = true ∧
      s'.transactions = s.transactions ++ [t] ∧
      s'.accounts = adjustList s.accounts account.id 0 (-m) := by
  unfold Authorize at h
  split at h
  · exact absurd h (by simp)
  · rename_i hval
    obtain ⟨hluhn, hcvv, hamt⟩ := validateAuthorizationRequest_none hval
    unfold performAuthorization at h
    split at h
    · exact absurd h (by simp)
    · rename_i account hacct
      split at h
      · exact absurd h (by simp)
      · split at h
        · exact absurd h (by simp)
        · split at h
          · exact absurd h (by simp)
          · rename_i hcvveq hexp hfunds
            dsimp only at h
            split at h
            · exact absurd h (by simp)
            · rename_i s₁ hcreate
              split at h
              · exact absurd h (by simp)
              · rename_i s₂ hadj
                obtain ⟨hs₁, hfresh, -⟩ := createTransaction_ok hcreate
                obtain ⟨hs₂, hex⟩ := adjustBalances_ok hadj
                cases h
                subst hs₁ hs₂
                refine ⟨account, hacct, hluhn, hcvv, hamt, ?_, ?_, ?_, rfl,
                  hfresh, by simpa using hex, rfl, rfl⟩
                · by_contra hne
                  exact hcvveq hne
                · by_contra hne
                  exact hexp hne
                · omega

theorem performCapture_ok {s : DBState} {clk : Clock} {n authId : Nat} {m : Int}
    {t : Txn} {s' : DBState}
    (h : performCapture s clk n authId m = .ok (t, s')) :
    ∃ authTxn,
      findTransactionByID s authId = some authTxn ∧
      authTxn.type = .authHold ∧ authTxn.status = .active ∧
      holdExpired authTxn.expiresAt clk = false ∧
      m = authTxn.amountCents ∧
      t = { id := n, accountId := authTxn.accountId, type := .capture, amountCents := m,
            currency := authTxn.currency, referenceId := some authId,
            status := .completed, expiresAt := none } ∧
      (s.transactions.any fun u => u.id == n) = false ∧
      (s.transactions.any fun u => u.referenceId == some authId && u.type == .capture)
        = false ∧
      (s.accounts.any fun a => a.id == authTxn.accountId) = true ∧
      n ≠ authId ∧
      s'.transactions = s.transactions.map (setStatusRow authId .completed) ++ [t] ∧
      s'.accounts = adjustList s.accounts authTxn.accountId (-m) 0 := by
  unfold performCapture at h
  split at h
  · exact absurd h (by simp)
  · rename_i authTxn hfind
    split at h
    · exact absurd h (by simp)
    · split at h
      · exact absurd h (by simp)
      · split at h
        · exact absurd h (by simp)
        · split at h
          · exact absurd h (by simp)
          · rename_i hty hst hexp hamt
            dsimp only at h
            split at h
            · exact absurd h (by simp)
            · exact absurd h (by simp)
            · rename_i s₁ hcreate
              split at h
              · exact absurd h (by simp)
              · rename_i s₂ hadj
                obtain ⟨hs₁, hfresh, hdup⟩ := createTransaction_ok hcreate
                obtain ⟨hs₂, hex⟩ := adjustBalances_ok hadj
                cases h
                have hty' : authTxn.type = .authHold := by
                  by_contra hne; exact hty hne
                have hst' : authTxn.status = .active := by
                  by_contra hne; exact hst hne
                have hamt' : m = authTxn.amountCents := by
                  by_contra hne; exact hamt hne
                have hne : n ≠ authId := by
                  intro heq
                  have hmem := List.mem_of_find?_eq_some hfind
                  have hpred := List.find?_some hfind
                  have := (List.any_eq_false.mp hfresh) authTxn hmem
                  simp at hpred
                  exact this (by simp [hpred, heq])
                subst hs₁
                subst hs₂
                refine ⟨authTxn, hfind, hty', hst', by simpa using hexp, hamt', rfl,
                  hfresh, by simpa [requiresReferenceUnique] using hdup,
                  by simpa [updateStatus] using hex, hne, ?_, rfl⟩
                simp only [updateStatus, List.map_append, List.map_cons, List.map_nil]
                congr 1
                simp [setStatusRow, hne]

theorem performVoid_ok {s : DBState} {n authId : Nat} {t : Txn} {s' : DBState}
    (h : performVoid s n authId = .ok (t, s')) :
    ∃ authTxn,
      findTransactionByID s authId = some authTxn ∧
      authTxn.type = .authHold ∧ authTxn.status = .active ∧
      findByReferenceID s authId .capture = none ∧
      t = { id := n, accountId := authTxn.accountId, type := .void,
            amountCents := authTxn.amountCents, currency := authTxn.currency,
            referenceId := some authId, status := .completed, expiresAt := none } ∧
      (s.transactions.any fun u => u.id == n) = false ∧
      (s.accounts.any fun a => a.id == authTxn.accountId) = true ∧
      n ≠ authId ∧
      s'.transactions = s.transactions.map (setStatusRow authId .completed) ++ [t] ∧
      s'.accounts = adjustList s.accounts authTxn.accountId 0 authTxn.amountCents := by
  unfold performVoid at h
  split at h
  · exact absurd h (by simp)
  · rename_i authTxn hfind
    split at h
    · exact absurd h (by simp)
    · split at h
      · exact absurd h (by simp)
      · rename_i hty hst
        split at h
        · exact absurd h (by simp)
        · rename_i hcap
          dsimp only at h
          split at h
          · exact absurd h (by simp)
          · exact absurd h (by simp)
          · rename_i s₁ hcreate
            split at h
            · exact absurd h (by simp)
            · rename_i s₂ hadj
              obtain ⟨hs₁, hfresh, -⟩ := createTransaction_ok hcreate
              obtain ⟨hs₂, hex⟩ := adjustBalances_ok hadj
              cases h
              have hty' : authTxn.type = .authHold := by
                by_contra hne; exact hty hne
              have hst' : authTxn.status = .active := by
                by_contra hne; exact hst hne
              have hne : n ≠ authId := by
                intro heq
                have hmem := List.mem_of_find?_eq_some hfind
                have hpred := List.find?_some hfind
                have := (List.any_eq_false.mp hfresh) authTxn hmem
                simp at hpred
                exact this (by simp [hpred, heq])
              subst hs₁
              subst hs₂
              refine ⟨authTxn, hfind, hty', hst', hcap, rfl, hfresh,
                by simpa [updateStatus] using hex, hne, ?_, rfl⟩
              simp only [updateStatus, List.map_append, List.map_cons, List.map_nil]
              congr 1
              simp [setStatusRow, hne]

theorem performRefund_ok {s : DBState} {n captureId : Nat} {m : Int}
    {t : Txn} {s' : DBState}
    (h : performRefund s n captureId m = .ok (t, s')) :
    ∃ captureTxn,
      findTransactionByID s captureId = some captureTxn ∧
      captureTxn.type = .capture ∧ captureTxn.status = .completed ∧
      m = captureTxn.amountCents ∧
      t = { id := n, accountId := captureTxn.accountId, type := .refund,
            amountCents := m, currency := captureTxn.currency,
            referenceId := some captureId, status := .completed, expiresAt := none } ∧
      (s.transactions.any fun u => u.id == n) = false ∧
      (s.transactions.any fun u => u.referenceId == some captureId && u.type == .refund)
        = false ∧
      (s.accounts.any fun a => a.id == captureTxn.accountId) = true ∧
      s'.transactions = s.transactions ++ [t] ∧
      s'.accounts = adjustList s.accounts captureTxn.accountId m m := by
  unfold performRefund at h
  split at h
  · exact absurd h (by simp)
  · rename_i captureTxn hfind
    split at h
    · exact absurd h (by simp)
    · split at h
      · exact absurd h (by simp)
      · split at h
        · exact absurd h (by simp)
        · rename_i hty hst hamt
          dsimp only at h
          split at h
          · exact absurd h (by simp)
          · exact absurd h (by simp)
          · rename_i s₁ hcreate
            split at h
            · exact absurd h (by simp)
            · rename_i s₂ hadj
              obtain ⟨hs₁, hfresh, hdup⟩ := createTransaction_ok hcreate
              obtain ⟨hs₂, hex⟩ := adjustBalances_ok hadj
              cases h
              have hty' : captureTxn.type = .capture := by
                by_contra hne; exact hty hne
              have hst' : captureTxn.status = .completed := by
                by_contra hne; exact hst hne
              have hamt' : m = captureTxn.amountCents := by
                by_contra hne; exact hamt hne
              subst hs₁
              subst hs₂
              exact ⟨captureTxn, hfind, hty', hst', hamt', rfl, hfresh,
                by simpa [requiresReferenceUnique] using hdup,
                by simpa using hex, rfl, rfl⟩

/-! ## Per-step balance and ledger effects -/

theorem balance_adjust_effect {s s' : DBState} {X : Nat} {p q : Int}
    (hacc : s'.accounts = adjustList s.accounts X p q)
    (hex : (s.accounts.any fun a => a.id == X) = true) (aid : Nat) :
    balanceOf s' aid = balanceOf s aid + (if X == aid then p else 0) ∧
    availableOf s' aid = availableOf s aid + (if X == aid then q else 0) := by
  have hsome : (s.accounts.find? fun a => a.id == X).isSome := by
    rw [List.find?_isSome]
    exact List.any_eq_true.mp hex
  constructor
  · rw [balanceOf, balanceOf, hacc, acctBalance_adjustList]
    by_cases hX : aid = X
    · subst hX
      simp [hsome]
    · have hX' : ¬(X == aid) = true := by simpa using Ne.symm hX
      simp [hX, hX']
  · rw [availableOf, availableOf, hacc, acctAvailable_adjustList]
    by_cases hX : aid = X
    · subst hX
      simp [hsome]
    · have hX' : ¬(X == aid) = true := by simpa using Ne.symm hX
      simp [hX, hX']

theorem Step_sums {s s' : DBState} (h : Step s s') (aid : Nat) :
    ledgerPostedSum s'.transactions aid - ledgerPostedSum s.transactions aid
      = balanceOf s' aid - balanceOf s aid ∧
    ledgerAvailableSum s'.transactions aid - ledgerAvailableSum s.transactions aid
      = availableOf s' aid - availableOf s aid := by
  cases h with
  | authorize clk hours n card cvv m t s2 heq =>
    obtain ⟨acct, hfind, -, -, -, -, -, -, ht, hfresh, hex, htxn, hacc⟩ := Authorize_ok heq
    subst ht
    obtain ⟨hb, ha⟩ := balance_adjust_effect hacc hex aid
    rw [htxn, ledgerPostedSum_append, ledgerAvailableSum_append, hb, ha]
    simp only [postedDelta, availableDelta]
    constructor <;> split <;> omega
  | capture clk n authId m t s2 heq =>
    obtain ⟨authTxn, hfind, -, -, -, -, ht, -, -, hex, -, htxn, hacc⟩ :=
      performCapture_ok heq
    subst ht
    obtain ⟨hb, ha⟩ := balance_adjust_effect hacc hex aid
    rw [htxn, ledgerPostedSum_append, ledgerAvailableSum_append,
      ledgerPostedSum_map_setStatusRow, ledgerAvailableSum_map_setStatusRow, hb, ha]
    simp only [postedDelta, availableDelta]
    constructor <;> split <;> omega
  | voids n authId t s2 heq =>
    obtain ⟨authTxn, hfind, -, -, -, ht, -, hex, -, htxn, hacc⟩ := performVoid_ok heq
    subst ht
    obtain ⟨hb, ha⟩ := balance_adjust_effect hacc hex aid
    rw [htxn, ledgerPostedSum_append, ledgerAvailableSum_append,
      ledgerPostedSum_map_setStatusRow, ledgerAvailableSum_map_setStatusRow, hb, ha]
    simp only [postedDelta, availableDelta]
    constructor <;> split <;> omega
  | refund n captureId m t s2 heq =>
    obtain ⟨capTxn, hfind, -, -, -, ht, -, -, hex, htxn, hacc⟩ := performRefund_ok heq
    subst ht
    obtain ⟨hb, ha⟩ := balance_adjust_effect hacc hex aid
    rw [htxn, ledgerPostedSum_append, ledgerAvailableSum_append, hb, ha]
    simp only [postedDelta, availableDelta]
    constructor <;> split <;> omega

theorem Reachable_sums {s₀ s : DBState} (h : Reachable s₀ s) (aid : Nat) :
    ledgerPostedSum s.transactions aid - ledgerPostedSum s₀.transactions aid
      = balanceOf s aid - balanceOf s₀ aid ∧
    ledgerAvailableSum s.transactions aid - ledgerAvailableSum s₀.transactions aid
      = availableOf s aid - availableOf s₀ aid := by
  induction h with
  | refl => exact ⟨by omega, by omega⟩
  | tail hr hstep ih =>
    obtain ⟨ih₁, ih₂⟩ := ih
    obtain ⟨h₁, h₂⟩ := Step_sums hstep aid
    exact ⟨by omega, by omega⟩

/-! ## Helper lemmas: outstanding hold sums -/

theorem holdSum_append (ts : List Txn) (t : Txn) (aid : Nat) :
    holdSum (ts ++ [t]) aid
      = holdSum ts aid + (if holdPred aid t then t.amountCents else 0) := by
  unfold holdSum
  rw [List.filter_append]
  by_cases h : holdPred aid t <;>
    simp [h, List.filter_cons, List.sum_append]

theorem holdSum_map_setStatusRow_completed (ts : List Txn) (authId aid : Nat) :
    holdSum (ts.map (setStatusRow authId .completed)) aid
      = holdSum ts aid - holdSumAt ts authId aid := by
  induction ts with
  | nil => rfl
  | cons t ts ih =>
    unfold holdSum holdSumAt at ih ⊢
    by_cases hid : t.id == authId
    · have hrow : setStatusRow authId .completed t = { t with status := .completed } := by
        unfold setStatusRow
        simp [hid]
      have hnp : holdPred aid (setStatusRow authId TxnStatus.completed t) = false := by
        rw [hrow]
        unfold holdPred
        simp
      by_cases hp : holdPred aid t <;>
        simp [List.filter_cons, hp, hid, hnp, ih]
    · have hrow : setStatusRow authId .completed t = t := by
        unfold setStatusRow
        simp [hid]
      by_cases hp : holdPred aid t
      · simp [List.filter_cons, hp, hid, hrow, ih]
        omega
      · simp [List.filter_cons, hp, hid, hrow, ih]

theorem holdSumAt_nonneg (ts : List Txn) (authId aid : Nat)
    (h : ∀ t ∈ ts, t.type = .authHold → t.status = .active → 0 ≤ t.amountCents) :
    0 ≤ holdSumAt ts authId aid := by
  unfold holdSumAt
  apply List.sum_nonneg
  intro x hx
  obtain ⟨t, ht, rfl⟩ := List.mem_map.mp hx
  obtain ⟨htm, hpt⟩ := List.mem_filter.mp ht
  have hp : holdPred aid t = true := by
    cases hb : holdPred aid t
    · rw [hb] at hpt; simp at hpt
    · rfl
  unfold holdPred at hp
  simp only [Bool.and_eq_true, beq_iff_eq] at hp
  exact h t htm hp.1.2 hp.2

theorem holdSum_nonneg (ts : List Txn) (aid : Nat)
    (h : ∀ t ∈ ts, t.type = .authHold → t.status = .active → 0 ≤ t.amountCents) :
    0 ≤ holdSum ts aid := by
  unfold holdSum
  apply List.sum_nonneg
  intro x hx
  obtain ⟨t, ht, rfl⟩ := List.mem_map.mp hx
  obtain ⟨htm, hpt⟩ := List.mem_filter.mp ht
  unfold holdPred at hpt
  simp only [Bool.and_eq_true, beq_iff_eq] at hpt
  exact h t htm hpt.1.2 hpt.2

theorem holdSumAt_ge (ts : List Txn) (authId aid : Nat) (t₀ : Txn)
    (hmem : t₀ ∈ ts) (hp : holdPred aid t₀ = true) (hid : t₀.id = authId)
    (h : ∀ t ∈ ts, t.type = .authHold → t.status = .active → 0 ≤ t.amountCents) :
    t₀.amountCents ≤ holdSumAt ts authId aid := by
  unfold holdSumAt
  apply List.single_le_sum
  · intro x hx
    obtain ⟨t, ht, rfl⟩ := List.mem_map.mp hx
    obtain ⟨htm, hpt⟩ := List.mem_filter.mp ht
    have hp' : holdPred aid t = true := by
      cases hb : holdPred aid t
      · rw [hb] at hpt; simp at hpt
      · rfl
    unfold holdPred at hp'
    simp only [Bool.and_eq_true, beq_iff_eq] at hp'
    exact h t htm hp'.1.2 hp'.2
  · apply List.mem_map_of_mem
    apply List.mem_filter.mpr
    exact ⟨hmem, by simp [hp, hid]⟩

/-! ## The balance inequality invariant -/

theorem validateAmount_pos {m : Int} (h : ValidateAmount m = true) : 0 < m := by
  unfold ValidateAmount at h
  split at h
  · cases h
  · rename_i hc
    omega

theorem setStatusRow_active {id : Nat} {u : Txn}
    (h : (setStatusRow id TxnStatus.completed u).status = .active) :
    setStatusRow id TxnStatus.completed u = u := by
  by_cases hid : u.id == id
  · simp [setStatusRow, hid] at h
  · simp [setStatusRow, hid]

/-- The inductive invariant behind `available ≤ balance`: every account's
available balance is at most its posted balance minus its outstanding
holds, and every outstanding hold has a nonnegative amount. -/
def StrongInv (s : DBState) : Prop :=
  (∀ a ∈ s.accounts,
      a.availableBalanceCents ≤ a.balanceCents - holdSum s.transactions a.id) ∧
  (∀ t ∈ s.transactions, t.type = .authHold → t.status = .active → 0 ≤ t.amountCents)

theorem StrongInv_step {s s' : DBState} (h : Step s s') (hinv : StrongInv s) :
    StrongInv s' := by
  obtain ⟨hbal, hpos⟩ := hinv
  cases h with
  | authorize clk hours n card cvv m t s2 heq =>
    obtain ⟨acct, hfind, -, -, hvamt, -, -, -, ht, -, -, htxn, hacc⟩ := Authorize_ok heq
    have hm : 0 < m := validateAmount_pos hvamt
    subst ht
    constructor
    · intro a' ha'
      rw [hacc] at ha'
      obtain ⟨a, ha, rfl⟩ := List.mem_map.mp ha'
      have hinva := hbal a ha
      rw [htxn, holdSum_append]
      by_cases hcase : a.id == acct.id
      · have hid : a.id = acct.id := by simpa using hcase
        rw [hid] at hinva
        simp [adjustAccount, hcase, holdPred, hid]
        omega
      · have hid : ¬ a.id = acct.id := by simpa using hcase
        have hp : (holdPred a.id
            { id := n, accountId := acct.id, type := .authHold, amountCents := m,
              currency := "USD", referenceId := none, status := .active,
              expiresAt := some (clk.now + hours * hourUnits) }) = false := by
          simp [holdPred]
          omega
        simp [adjustAccount, hcase, hp]
        omega
    · intro t' ht'
      rw [htxn] at ht'
      rcases List.mem_append.mp ht' with hmem | hmem
      · exact hpos t' hmem
      · obtain rfl := List.mem_singleton.mp hmem
        intro _ _
        simpa using le_of_lt hm
  | capture clk n authId m t s2 heq =>
    obtain ⟨authTxn, hfind, hty, hst, -, hamt, ht, -, -, hex, -, htxn, hacc⟩ :=
      performCapture_ok heq
    have hmem₀ := List.mem_of_find?_eq_some hfind
    have hid₀ : authTxn.id = authId := by simpa using List.find?_some hfind
    subst ht
    constructor
    · intro a' ha'
      rw [hacc] at ha'
      obtain ⟨a, ha, rfl⟩ := List.mem_map.mp ha'
      have hinva := hbal a ha
      have hnp : ∀ aid, holdPred aid
          { id := n, accountId := authTxn.accountId, type := .capture, amountCents := m,
            currency := authTxn.currency, referenceId := some authId,
            status := .completed, expiresAt := none } = false := fun aid => by
        simp [holdPred]
      rw [htxn, holdSum_append, hnp, holdSum_map_setStatusRow_completed]
      have hC0 := holdSumAt_nonneg s.transactions authId a.id hpos
      by_cases hcase : a.id == authTxn.accountId
      · have hid : a.id = authTxn.accountId := by simpa using hcase
        have hpt : holdPred a.id authTxn = true := by
          simp [holdPred, hid, hty, hst]
        have hCm := holdSumAt_ge s.transactions authId a.id authTxn hmem₀ hpt hid₀ hpos
        simp [adjustAccount, hcase]
        omega
      · simp [adjustAccount, hcase]
        omega
    · intro t' ht'
      rw [htxn] at ht'
      rcases List.mem_append.mp ht' with hmem | hmem
      · obtain ⟨u, hu, rfl⟩ := List.mem_map.mp hmem
        intro hty' hst'
        have hrw := setStatusRow_active hst'
        rw [hrw] at hty' hst' ⊢
        exact hpos u hu hty' hst'
      · obtain rfl := List.mem_singleton.mp hmem
        intro hty' _
        simp at hty'
  | voids n authId t s2 heq =>
    obtain ⟨authTxn, hfind, hty, hst, -, ht, -, hex, -, htxn, hacc⟩ := performVoid_ok heq
    have hmem₀ := List.mem_of_find?_eq_some hfind
    have hid₀ : authTxn.id = authId := by simpa using List.find?_some hfind
    subst ht
    constructor
    · intro a' ha'
      rw [hacc] at ha'
      obtain ⟨a, ha, rfl⟩ := List.mem_map.mp ha'
      have hinva := hbal a ha
      have hnp : ∀ aid, holdPred aid
          { id := n, accountId := authTxn.accountId, type := .void,
            amountCents := authTxn.amountCents, currency := authTxn.currency,
            referenceId := some authId, status := .completed, expiresAt := none }
          = false := fun aid => by
        simp [holdPred]
      rw [htxn, holdSum_append, hnp, holdSum_map_setStatusRow_completed]
      have hC0 := holdSumAt_nonneg s.transactions authId a.id hpos
      by_cases hcase : a.id == authTxn.accountId
      · have hid : a.id = authTxn.accountId := by simpa using hcase
        have hpt : holdPred a.id authTxn = true := by
          simp [holdPred, hid, hty, hst]
        have hCm := holdSumAt_ge s.transactions authId a.id authTxn hmem₀ hpt hid₀ hpos
        simp [adjustAccount, hcase]
        omega
      · simp [adjustAccount, hcase]
        omega
    · intro t' ht'
      rw [htxn] at ht'
      rcases List.mem_append.mp ht' with hmem | hmem
      · obtain ⟨u, hu, rfl⟩ := List.mem_map.mp hmem
        intro hty' hst'
        have hrw := setStatusRow_active hst'
        rw [hrw] at hty' hst' ⊢
        exact hpos u hu hty' hst'
      · obtain rfl := List.mem_singleton.mp hmem
        intro hty' _
        simp at hty'
  | refund n captureId m t s2 heq =>
    obtain ⟨capTxn, hfind, hty, hst, hamt, ht, -, -, hex, htxn, hacc⟩ := performRefund_ok heq
    subst ht
    constructor
    · intro a' ha'
      rw [hacc] at ha'
      obtain ⟨a, ha, rfl⟩ := List.mem_map.mp ha'
      have hinva := hbal a ha
      have hnp : ∀ aid, holdPred aid
          { id := n, accountId := capTxn.accountId, type := .refund, amountCents := m,
            currency := capTxn.currency, referenceId := some captureId,
            status := .completed, expiresAt := none } = false := fun aid => by
        simp [holdPred]
      rw [htxn, holdSum_append, hnp]
      by_cases hcase : a.id == capTxn.accountId
      · simp [adjustAccount, hcase]
        omega
      · simp [adjustAccount, hcase]
        omega
    · intro t' ht'
      rw [htxn] at ht'
      rcases List.mem_append.mp ht' with hmem | hmem
      · exact hpos t' hmem
      · obtain rfl := List.mem_singleton.mp hmem
        intro hty' _
        simp at hty'

theorem StrongInv_reachable {s₀ s : DBState} (h : Reachable s₀ s) (hinv : StrongInv s₀) :
    StrongInv s := by
  induction h with
  | refl => exact hinv
  | tail hr hstep ih => exact StrongInv_step hstep ih

/-! ## Serialized concurrent captures

The row lock on the AUTH_HOLD serializes concurrent `Capture` calls
(spec §5): N concurrent requests execute as N sequential service calls in
some order, each seeing the state the previous one committed (a failed
call rolls back and leaves the state unchanged). -/

/-- Run a list of capture requests (one fresh UUID per request) back to
back against the same authorization with the same amount, collecting each
request's service result. -/
def runCaptures (clk : Clock) (authId : Nat) (amount : Int) :
    DBState → List Nat → List (Except SvcError Txn) × DBState
  | s, [] => ([], s)
  | s, newId :: rest =>
    match performCapture s clk newId authId amount with
    | .ok (t, s') =>
      let p := runCaptures clk authId amount s' rest
      (.ok t :: p.1, p.2)
    | .error e =>
      let p := runCaptures clk authId amount s rest
      (.error e :: p.1, p.2)

theorem find?_id_map_setStatusRow (ts : List Txn) (id2 : Nat) (st : TxnStatus)
    (aid : Nat) :
    (ts.map (setStatusRow id2 st)).find? (fun t => t.id == aid)
      = (ts.find? fun t => t.id == aid).map (setStatusRow id2 st) := by
  rw [List.find?_map]
  have hp : ((fun t => t.id == aid) ∘ setStatusRow id2 st) = fun t : Txn => t.id == aid := by
    funext t
    simp [Function.comp, setStatusRow_id]
  rw [hp]

theorem runCaptures_completed {s : DBState} {clk : Clock} {authId : Nat} {amount : Int}
    {t₀ : Txn} (hfind : findTransactionByID s authId = some t₀)
    (hty : t₀.type = .authHold) (hst : t₀.status = .completed) (ids : List Nat) :
    runCaptures clk authId amount s ids
      = (List.replicate ids.length (.error (.typed .authorizationAlreadyUsed)), s) := by
  induction ids with
  | nil => rfl
  | cons nid rest ih =>
    have hcap : performCapture s clk nid authId amount
        = .error (.typed .authorizationAlreadyUsed) := by
      unfold performCapture
      rw [hfind]
      simp [hty, hst]
    unfold runCaptures
    rw [hcap, ih]
    simp [List.replicate_succ]

theorem performCapture_success {s : DBState} {clk : Clock} {authId nid : Nat} {t₀ : Txn}
    (hfind : findTransactionByID s authId = some t₀)
    (hty : t₀.type = .authHold) (hst : t₀.status = .active)
    (hexp : holdExpired t₀.expiresAt clk = false)
    (hfresh : (s.transactions.any fun u => u.id == nid) = false)
    (hnodup : (s.transactions.any fun u =>
        u.referenceId == some authId && u.type == .capture) = false)
    (hacct : (s.accounts.any fun a => a.id == t₀.accountId) = true) :
    performCapture s clk nid authId t₀.amountCents
      = .ok
        (({ id := nid, accountId := t₀.accountId, type := .capture,
            amountCents := t₀.amountCents, currency := t₀.currency,
            referenceId := some authId, status := .completed, expiresAt := none } : Txn),
         ({ accounts := adjustList s.accounts t₀.accountId (-t₀.amountCents) 0,
            transactions :=
              List.map (setStatusRow authId .completed)
                (s.transactions ++
                 [({ id := nid, accountId := t₀.accountId, type := .capture,
                     amountCents := t₀.amountCents, currency := t₀.currency,
                     referenceId := some authId, status := .completed,
                     expiresAt := none } : Txn)]) } : DBState)) := by
  unfold performCapture
  rw [hfind]
  simp only [hty, hst, hexp]
  rw [if_neg (by simp), if_neg (by simp), if_neg (by simp), if_neg (by simp)]
  unfold createTransaction
  rw [if_neg (by simp_all), if_neg (by simp_all [requiresReferenceUnique])]
  dsimp only
  unfold adjustBalances updateStatus
  rw [if_pos (by simpa using hacct)]

/-! ## The Luhn checksum as the spec words it -/

/-- The spec's checksum transform on a digit list in right-to-left order:
keep the digits at even positions (0-based from the right), double the
digits at odd positions, subtracting 9 from a doubled value exceeding 9. -/
def doubledFromRight : List Nat → List Nat
  | [] => []
  | [d] => [d]
  | d :: e :: rest => d :: luhnDouble e :: doubledFromRight rest

/-- The Luhn sum as the spec describes it: sum after doubling every second
digit from the right. -/
def luhnSpecSum (digits : List Nat) : Nat :=
  (doubledFromRight digits.reverse).sum

theorem luhnSumAux_eq_doubledFromRight :
    ∀ l : List Nat, luhnSumAux l false = (doubledFromRight l).sum
  | [] => rfl
  | [d] => by simp [luhnSumAux, doubledFromRight]
  | d :: e :: rest => by
    have ih := luhnSumAux_eq_doubledFromRight rest
    simp [luhnSumAux, doubledFromRight, ih]

/-! ## Concrete fixtures (the migration's primary seed account) -/

/-- The primary seed account of the migration
(`4111111111111111 / 123 / 12-2030 / $10,000`). -/
def seedAccount : Account :=
  { accountNumber := "4111111111111111", cvv := "123", expiryMonth := 12,
    expiryYear := 2030, balanceCents := 1000000, availableBalanceCents := 1000000,
    id := 0 }

/-- A provisioning-time database: the seed account and an empty ledger. -/
def seedState : DBState :=
  { accounts := [seedAccount], transactions := [] }

/-- A fixed request clock. -/
def testClock : Clock :=
  { now := 0, month := 10, year := 2026 }

/-- The AUTH_HOLD created by authorizing 10000 cents on the seed account at
`testClock` with the default expiry. -/
def seedHold : Txn :=
  { id := 1, accountId := 0, type := .authHold, amountCents := 10000,
    currency := "USD", referenceId := none, status := .active,
    expiresAt := some 604800 }

/-- `seedState` after that authorization. -/
def afterAuthState : DBState :=
  { accounts := [{ seedAccount with availableBalanceCents := 990000 }],
    transactions := [seedHold] }

/-! ## Claims -/

/-- C9: `ValidateLuhn` strips the input to its decimal digits (its result
depends only on them), rejects digit counts below 13 or above 19 — so 12-
and 20-digit numbers are rejected regardless of checksum — and otherwise
accepts exactly when the Luhn sum (doubling every second digit from the
right, subtracting 9 from doubled values exceeding 9) is divisible
by 10. -/
theorem C9_luhn :
    (∀ s₁ s₂ : String, digitsOf s₁ = digitsOf s₂ → ValidateLuhn s₁ = ValidateLuhn s₂) ∧
    (∀ s : String, (digitsOf s).length < 13 ∨ (digitsOf s).length > 19 →
      ValidateLuhn s = false) ∧
    (∀ s : String, 13 ≤ (digitsOf s).length → (digitsOf s).length ≤ 19 →
      (ValidateLuhn s = true ↔ luhnSpecSum (digitsOf s) % 10 = 0)) := by
  refine ⟨?_, ?_, ?_⟩
  · intro s₁ s₂ h
    unfold ValidateLuhn
    rw [h]
  · intro s h
    unfold ValidateLuhn
    rw [if_pos h]
  · intro s h₁ h₂
    unfold ValidateLuhn
    rw [if_neg (by omega)]
    rw [luhnSumAux_eq_doubledFromRight]
    unfold luhnSpecSum
    simp

/-- Witness for C9: a valid 16-digit number passes and its sum is ≡ 0
mod 10; a 12-digit all-zero number (checksum 0) is rejected; spacing the
digits does not change the result. -/
theorem C9_luhn_witness :
    ValidateLuhn "411111111111" = false ∧
    ValidateLuhn "4111 1111 1111 1111" = ValidateLuhn "4111111111111111" ∧
    (ValidateLuhn "4111111111111111" = true ↔
      luhnSpecSum (digitsOf "4111111111111111") % 10 = 0) := by
  obtain ⟨h₁, h₂, h₃⟩ := C9_luhn
  exact ⟨h₂ "411111111111" (by decide),
    h₁ "4111 1111 1111 1111" "4111111111111111" (by decide),
    h₃ "4111111111111111" (by decide) (by decide)⟩

/-- C10: a GET lookup that finds an existing transaction row of a
different type reports it as not found: `GetAuthorization` on a
non-AUTH_HOLD row yields `authorization_not_found`, `GetCapture` on a
non-CAPTURE row yields `capture_not_found`, and `GetRefund` on a
non-REFUND row yields `refund_not_found`. -/
theorem C10_get_type_mismatch (s : DBState) (id : Nat) (t : Txn)
    (hfind : findTransactionByID s id = some t) :
    (t.type ≠ .authHold →
      GetAuthorization s id = .error .authorizationNotFound ∧
      errCodeString .authorizationNotFound = "authorization_not_found") ∧
    (t.type ≠ .capture →
      GetCapture s id = .error .captureNotFound ∧
      errCodeString .captureNotFound = "capture_not_found") ∧
    (t.type ≠ .refund →
      GetRefund s id = .error .refundNotFound ∧
      errCodeString .refundNotFound = "refund_not_found") := by
  refine ⟨fun h => ⟨?_, rfl⟩, fun h => ⟨?_, rfl⟩, fun h => ⟨?_, rfl⟩⟩
  · unfold GetAuthorization
    rw [hfind]
    dsimp only
    rw [if_pos h]
  · unfold GetCapture
    rw [hfind]
    dsimp only
    rw [if_pos h]
  · unfold GetRefund
    rw [hfind]
    dsimp only
    rw [if_pos h]

/-- Witness for C10: looking up the AUTH_HOLD of `afterAuthState` through
the capture and refund endpoints reports not-found. -/
theorem C10_get_type_mismatch_witness :
    GetCapture afterAuthState 1 = .error .captureNotFound ∧
    GetRefund afterAuthState 1 = .error .refundNotFound := by
  have h := C10_get_type_mismatch afterAuthState 1 seedHold (by decide)
  exact ⟨(h.2.1 (by decide)).1, (h.2.2 (by decide)).1⟩

/-- C7: for a POST to one of the four mutating paths carrying a non-empty
`Idempotency-Key`: on a cache hit the middleware replays the stored status
and body with `X-Idempotent-Replayed: true` and
`Content-Type: application/json` and does not invoke the handler; on a
miss it invokes the handler and passes `Store` a record exactly when the
handler status is in [200, 300); the `Store` outcome never changes the
middleware's response. -/
theorem C7_idempotency_middleware (lookup : Except Unit (Option IdemRecord))
    (handlerResp : HttpResponse) (storeResult : Except Unit Unit) (r : HttpRequest)
    (hpost : r.method = "POST") (hpath : r.path ∈ idempotentPaths)
    (hkey : r.idempotencyKey ≠ "") :
    (∀ rec, lookup = .ok (some rec) →
      Idempotency lookup handlerResp storeResult r =
        { response :=
            { status := rec.responseStatus, body := rec.responseBody,
              headers := [("Content-Type", "application/json"),
                          ("X-Idempotent-Replayed", "true")] },
          handlerInvoked := false, stored := none }) ∧
    (lookup = .ok none →
      (Idempotency lookup handlerResp storeResult r).handlerInvoked = true ∧
      (Idempotency lookup handlerResp storeResult r).stored
        = (if shouldCacheResponse handlerResp.status then
            some { key := r.idempotencyKey, requestPath := normalizeRequestPath r.path,
                   responseStatus := handlerResp.status,
                   responseBody := handlerResp.body }
           else none) ∧
      (∀ st : Nat, shouldCacheResponse st = true ↔ 200 ≤ st ∧ st < 300)) ∧
    (∀ storeResult' : Except Unit Unit,
      (Idempotency lookup handlerResp storeResult r).response
        = (Idempotency lookup handlerResp storeResult' r).response) := by
  have hreq : requiresIdempotency r = true := by
    unfold requiresIdempotency
    rw [hpost]
    simp [hpath]
  refine ⟨?_, ?_, ?_⟩
  · intro rec hl
    unfold Idempotency
    rw [hl]
    simp [hreq, hkey]
  · intro hl
    unfold Idempotency
    rw [hl, if_neg (by simp [hreq]), if_neg hkey]
    dsimp only
    refine ⟨by split <;> rfl, ?_, ?_⟩
    · split
      · rename_i hc
        rfl
      · rename_i hc
        rfl
    · intro st
      unfold shouldCacheResponse
      simp
  · intro storeResult'
    rfl

/-- A cached response record used to exercise the middleware. -/
def wIdemRecord : IdemRecord :=
  { key := "K", requestPath := "/api/v1/captures", responseStatus := 200,
    responseBody := "B" }

/-- A POST capture request carrying `Idempotency-Key: K`. -/
def wIdemRequest : HttpRequest :=
  { method := "POST", path := "/api/v1/captures", idempotencyKey := "K" }

/-- The replay the middleware must produce for `wIdemRecord`. -/
def wReplayOutcome : IdemOutcome :=
  { response :=
      { status := 200, body := "B",
        headers := [("Content-Type", "application/json"),
                    ("X-Idempotent-Replayed", "true")] },
    handlerInvoked := false, stored := none }

/-- A 200 handler response to a miss. -/
def wMissResponse : HttpResponse :=
  { status := 200, body := "Y", headers := [] }

/-- The record the middleware must hand to `Store` after `wMissResponse`. -/
def wStoredRecord : IdemRecord :=
  { key := "K", requestPath := "/api/v1/captures", responseStatus := 200,
    responseBody := "Y" }

/-- Witness for C7: a concrete replayed request, and a concrete miss that
caches a 200 response. -/
theorem C7_idempotency_middleware_witness :
    Idempotency (.ok (some wIdemRecord)) { status := 500, body := "X", headers := [] }
        (.ok ()) wIdemRequest = wReplayOutcome ∧
    (Idempotency (.ok none) wMissResponse (.error ()) wIdemRequest).stored
      = some wStoredRecord := by
  constructor
  · exact (C7_idempotency_middleware _ _ _ _ rfl (by decide) (by decide)).1 _ rfl
  · rw [((C7_idempotency_middleware _ _ _ _ rfl (by decide) (by decide)).2.1 rfl).2.1]
    decide

/-- An ACTIVE hold whose account row does not exist: capturing it makes
`AdjustBalances` fail (`rowsAffected == 0`), a database failure that the
service wraps in a typed `ServiceError` with code `internal_error`. -/
def orphanHold : Txn :=
  { id := 1, accountId := 7, type := .authHold, amountCents := 100,
    currency := "USD", referenceId := none, status := .active, expiresAt := none }

/-- A database with `orphanHold` and no accounts. -/
def orphanState : DBState :=
  { accounts := [], transactions := [orphanHold] }

/-- Counterexample to C8 as stated: a DB failure (here `AdjustBalances`
hitting no row) surfaces as a typed `ServiceError` with code
`internal_error`, and the capture handler maps every typed error — this
one included — to HTTP 400, not 500. -/
theorem C8_counterexample :
    performCapture orphanState testClock 2 1 100 = .error (.typed .internalError) ∧
    handleCaptureError (.typed .internalError) = (400, "internal_error") ∧
    createCaptureStatus (.error (.typed .internalError)) ≠ 500 := by
  refine ⟨rfl, rfl, by decide⟩

/-- C8 (amended): every successful mutating request returns 200 (never
201); every typed service error maps to 400 except `insufficient_funds`,
which the authorization handler maps to 402; an error with no
`ServiceError` in its chain maps to 500 `internal_error`; and a typed
error whose code has no case in the mapping switch — `internal_error`
itself included, the shape DB failures take — maps to 400 with code
`internal_error`, not 500. -/
theorem C8_http_status_mapping_amended :
    (∀ t : Txn, createAuthorizationStatus (.ok t) = 200 ∧
      createCaptureStatus (.ok t) = 200 ∧ createVoidStatus (.ok t) = 200 ∧
      createRefundStatus (.ok t) = 200) ∧
    (∀ c : ErrCode, c ≠ .insufficientFunds →
      handleAuthorizationError (.typed c) = (400, mapServiceErrorToCode c)) ∧
    handleAuthorizationError (.typed .insufficientFunds) = (402, "insufficient_funds") ∧
    (∀ c : ErrCode,
      handleCaptureError (.typed c) = (400, mapServiceErrorToCode c) ∧
      handleVoidError (.typed c) = (400, mapServiceErrorToCode c) ∧
      handleRefundError (.typed c) = (400, mapServiceErrorToCode c)) ∧
    (handleAuthorizationError .wrapped = (500, "internal_error") ∧
      handleCaptureError .wrapped = (500, "internal_error") ∧
      handleVoidError .wrapped = (500, "internal_error") ∧
      handleRefundError .wrapped = (500, "internal_error")) ∧
    mapServiceErrorToCode .internalError = "internal_error" := by
  refine ⟨fun t => ⟨rfl, rfl, rfl, rfl⟩, ?_, rfl, fun c => ⟨rfl, rfl, rfl⟩,
    ⟨rfl, rfl, rfl, rfl⟩, rfl⟩
  intro c hc
  unfold handleAuthorizationError
  dsimp only
  rw [if_neg]
  simpa [isPaymentRequiredError] using hc

/-- Witness for C8 (amended): the 400/402 split at two concrete codes. -/
theorem C8_http_status_mapping_amended_witness :
    handleAuthorizationError (.typed .cardExpired) = (400, "card_expired") ∧
    handleAuthorizationError (.typed .insufficientFunds) = (402, "insufficient_funds") := by
  obtain ⟨-, h400, h402, -, -, -⟩ := C8_http_status_mapping_amended
  exact ⟨h400 .cardExpired (by decide), h402⟩

theorem performAuthorization_success {s : DBState} {clk : Clock} {hours : Int}
    {newId : Nat} {card cvv : String} {m : Int} {a : Account}
    (hfind : findAccountByNumber s card = some a)
    (hcvv : a.cvv = cvv)
    (hexp : ValidateExpiry a.expiryMonth a.expiryYear clk = true)
    (hfunds : ¬ a.availableBalanceCents < m)
    (hfresh : (s.transactions.any fun u => u.id == newId) = false) :
    performAuthorization s clk hours newId card cvv m
      = .ok
        (({ id := newId, accountId := a.id, type := .authHold, amountCents := m,
            currency := "USD", referenceId := none, status := .active,
            expiresAt := some (clk.now + hours * hourUnits) } : Txn),
         ({ accounts := adjustList s.accounts a.id 0 (-m),
            transactions :=
              s.transactions ++
                [({ id := newId, accountId := a.id, type := .authHold, amountCents := m,
                    currency := "USD", referenceId := none, status := .active,
                    expiresAt := some (clk.now + hours * hourUnits) } : Txn)] }
          : DBState)) := by
  have hacct : (s.accounts.any fun x => x.id == a.id) = true := by
    rw [List.any_eq_true]
    exact ⟨a, List.mem_of_find?_eq_some hfind, by simp⟩
  unfold performAuthorization
  rw [hfind]
  simp only [hcvv, hexp]
  rw [if_neg (by simp), if_neg (by simp), if_neg hfunds]
  unfold createTransaction
  rw [if_neg (by simp_all), if_neg (by simp [requiresReferenceUnique])]
  dsimp only
  unfold adjustBalances
  rw [if_pos (by simpa using hacct)]

/-- C4: `performCapture` applies its checks in exactly the spec's order:
missing row or non-AUTH_HOLD type → `authorization_not_found`; then
non-ACTIVE status → `authorization_already_used`; then past `expires_at` →
`authorization_expired`; then amount different from the hold amount →
`amount_mismatch`; then a `(reference_id, CAPTURE)` conflict on insert →
`already_captured`; otherwise (with a fresh row id and an existing account
row) the capture succeeds. -/
theorem C4_capture_error_order (s : DBState) (clk : Clock) (newId authId : Nat)
    (amount : Int) :
    (findTransactionByID s authId = none →
      performCapture s clk newId authId amount = .error (.typed .authorizationNotFound)) ∧
    (∀ t, findTransactionByID s authId = some t →
      (t.type ≠ .authHold →
        performCapture s clk newId authId amount
          = .error (.typed .authorizationNotFound)) ∧
      (t.type = .authHold → t.status ≠ .active →
        performCapture s clk newId authId amount
          = .error (.typed .authorizationAlreadyUsed)) ∧
      (t.type = .authHold → t.status = .active → holdExpired t.expiresAt clk = true →
        performCapture s clk newId authId amount
          = .error (.typed .authorizationExpired)) ∧
      (t.type = .authHold → t.status = .active → holdExpired t.expiresAt clk = false →
        amount ≠ t.amountCents →
        performCapture s clk newId authId amount = .error (.typed .amountMismatch)) ∧
      (t.type = .authHold → t.status = .active → holdExpired t.expiresAt clk = false →
        amount = t.amountCents →
        (s.transactions.any fun u => u.id == newId) = false →
        (s.transactions.any fun u =>
          u.referenceId == some authId && u.type == .capture) = true →
        performCapture s clk newId authId amount = .error (.typed .alreadyCaptured)) ∧
      (t.type = .authHold → t.status = .active → holdExpired t.expiresAt clk = false →
        amount = t.amountCents →
        (s.transactions.any fun u => u.id == newId) = false →
        (s.transactions.any fun u =>
          u.referenceId == some authId && u.type == .capture) = false →
        (s.accounts.any fun a => a.id == t.accountId) = true →
        ∃ c s', performCapture s clk newId authId amount = .ok (c, s'))) := by
  constructor
  · intro hnone
    unfold performCapture
    rw [hnone]
  · intro t hfind
    refine ⟨?_, ?_, ?_, ?_, ?_, ?_⟩
    · intro hty
      unfold performCapture
      rw [hfind]
      dsimp only
      rw [if_pos hty]
    · intro hty hst
      unfold performCapture
      rw [hfind]
      dsimp only
      rw [if_neg (by simp [hty]), if_pos hst]
    · intro hty hst hexp
      unfold performCapture
      rw [hfind]
      dsimp only
      rw [if_neg (by simp [hty]), if_neg (by simp [hst]), if_pos hexp]
    · intro hty hst hexp hamt
      unfold performCapture
      rw [hfind]
      dsimp only
      rw [if_neg (by simp [hty]), if_neg (by simp [hst]), if_neg (by simp [hexp]),
        if_pos hamt]
    · intro hty hst hexp hamt hfresh hdup
      unfold performCapture
      rw [hfind]
      dsimp only
      rw [if_neg (by simp [hty]), if_neg (by simp [hst]), if_neg (by simp [hexp]),
        if_neg (by simp [hamt])]
      unfold createTransaction
      rw [if_neg (by simp_all), if_pos (by simp_all [requiresReferenceUnique])]
    · intro hty hst hexp hamt hfresh hdup hacct
      subst hamt
      exact ⟨_, _, performCapture_success hfind hty hst hexp hfresh hdup hacct⟩

/-- A CAPTURE child of `seedHold` already in the ledger. -/
def seedCapture : Txn :=
  { id := 2, accountId := 0, type := .capture, amountCents := 10000,
    currency := "USD", referenceId := some 1, status := .completed,
    expiresAt := none }

/-- A state in which `seedHold` is still ACTIVE but a CAPTURE child
already exists (as a second concurrent capture would see it under the
unique index, before the status update commits). -/
def capturedState : DBState :=
  { accounts := [{ seedAccount with availableBalanceCents := 990000 }],
    transactions := [seedHold, seedCapture] }

/-- Witness for C4: against `capturedState` a capture of the hold hits the
unique-index conflict and fails with `already_captured`; against
`afterAuthState` with a wrong amount it fails with `amount_mismatch`. -/
theorem C4_capture_error_order_witness :
    performCapture capturedState testClock 5 1 10000
      = .error (.typed .alreadyCaptured) ∧
    performCapture afterAuthState testClock 5 1 999
      = .error (.typed .amountMismatch) := by
  constructor
  · exact ((C4_capture_error_order capturedState testClock 5 1 10000).2 seedHold
      (by decide)).2.2.2.2.1 rfl rfl (by decide) rfl (by decide) (by decide)
  · exact ((C4_capture_error_order afterAuthState testClock 5 1 999).2 seedHold
      (by decide)).2.2.2.1 rfl rfl (by decide) (by decide)

/-- C5: `Authorize` validates inputs first — a Luhn failure maps to
`invalid_card`, a malformed CVV to `invalid_cvv`, an amount ≤ 0 to
`invalid_amount` — then a missing account row yields `invalid_card` (the
same code as a Luhn failure), a CVV mismatch `invalid_cvv`, an expired
card `card_expired`, and `insufficient_funds` exactly when
`available_balance_cents < amount`; on success it inserts an AUTH_HOLD
with status ACTIVE and `expires_at = now + authExpiryHours` (default 168
hours) and applies balance deltas (0, −amount). -/
theorem C5_authorize_checks (s : DBState) (clk : Clock) (hours : Int) (newId : Nat)
    (card cvv : String) (m : Int) :
    (ValidateLuhn card = false →
      Authorize s clk hours newId card cvv m = .error (.typed .invalidCard)) ∧
    (ValidateLuhn card = true → ValidateCVV cvv = false →
      Authorize s clk hours newId card cvv m = .error (.typed .invalidCVV)) ∧
    (ValidateLuhn card = true → ValidateCVV cvv = true → m ≤ 0 →
      Authorize s clk hours newId card cvv m = .error (.typed .invalidAmount)) ∧
    (ValidateLuhn card = true → ValidateCVV cvv = true → 0 < m →
      findAccountByNumber s card = none →
      Authorize s clk hours newId card cvv m = .error (.typed .invalidCard)) ∧
    (∀ a, ValidateLuhn card = true → ValidateCVV cvv = true → 0 < m →
      findAccountByNumber s card = some a →
      (a.cvv ≠ cvv →
        Authorize s clk hours newId card cvv m = .error (.typed .invalidCVV)) ∧
      (a.cvv = cvv → ValidateExpiry a.expiryMonth a.expiryYear clk = false →
        Authorize s clk hours newId card cvv m = .error (.typed .cardExpired)) ∧
      (a.cvv = cvv → ValidateExpiry a.expiryMonth a.expiryYear clk = true →
        a.availableBalanceCents < m →
        Authorize s clk hours newId card cvv m = .error (.typed .insufficientFunds)) ∧
      (a.cvv = cvv → ValidateExpiry a.expiryMonth a.expiryYear clk = true →
        ¬ a.availableBalanceCents < m →
        (s.transactions.any fun u => u.id == newId) = false →
        ∃ t s', Authorize s clk hours newId card cvv m = .ok (t, s') ∧
          t.type = .authHold ∧ t.status = .active ∧ t.amountCents = m ∧
          t.expiresAt = some (clk.now + hours * hourUnits) ∧
          s'.transactions = s.transactions ++ [t] ∧
          s'.accounts = adjustList s.accounts a.id 0 (-m))) ∧
    defaultAuthExpiryHours = 168 := by
  have hval : ∀ (h1 : ValidateLuhn card = true) (h2 : ValidateCVV cvv = true)
      (h3 : 0 < m), validateAuthorizationRequest card cvv m = none := by
    intro h1 h2 h3
    unfold validateAuthorizationRequest
    rw [if_neg (by simp [h1]), if_neg (by simp [h2]),
      if_neg (by simp [ValidateAmount]; omega)]
  refine ⟨?_, ?_, ?_, ?_, ?_, rfl⟩
  · intro hluhn
    unfold Authorize validateAuthorizationRequest
    rw [if_pos (by simp [hluhn])]
  · intro hluhn hcvv
    unfold Authorize validateAuthorizationRequest
    rw [if_neg (by simp [hluhn]), if_pos (by simp [hcvv])]
  · intro hluhn hcvv hm
    unfold Authorize validateAuthorizationRequest
    rw [if_neg (by simp [hluhn]), if_neg (by simp [hcvv]),
      if_pos (by simp [ValidateAmount]; omega)]
  · intro hluhn hcvv hm hnone
    unfold Authorize
    rw [hval hluhn hcvv hm]
    unfold performAuthorization
    rw [hnone]
  · intro a hluhn hcvv hm hfind
    refine ⟨?_, ?_, ?_, ?_⟩
    · intro hne
      unfold Authorize
      rw [hval hluhn hcvv hm]
      unfold performAuthorization
      rw [hfind]
      dsimp only
      rw [if_pos hne]
    · intro hceq hexp
      unfold Authorize
      rw [hval hluhn hcvv hm]
      unfold performAuthorization
      rw [hfind]
      dsimp only
      rw [if_neg (by simp [hceq]), if_pos (by simp [hexp])]
    · intro hceq hexp hlt
      unfold Authorize
      rw [hval hluhn hcvv hm]
      unfold performAuthorization
      rw [hfind]
      dsimp only
      rw [if_neg (by simp [hceq]), if_neg (by simp [hexp]), if_pos hlt]
    · intro hceq hexp hge hfresh
      have hA : Authorize s clk hours newId card cvv m
          = performAuthorization s clk hours newId card cvv m := by
        unfold Authorize
        rw [hval hluhn hcvv hm]
      rw [hA]
      exact ⟨_, _, performAuthorization_success hfind hceq hexp hge hfresh,
        rfl, rfl, rfl, rfl, rfl, rfl⟩

/-- Witness for C5: a successful authorization on the seed account, and
the `insufficient_funds` rejection when the amount exceeds the available
balance. -/
theorem C5_authorize_checks_witness :
    (∃ t s', Authorize seedState testClock 168 1 "4111111111111111" "123" 10000
        = .ok (t, s') ∧
      t.type = .authHold ∧ t.status = .active ∧ t.amountCents = 10000 ∧
      t.expiresAt = some 604800 ∧
      s'.transactions = seedState.transactions ++ [t] ∧
      s'.accounts = adjustList seedState.accounts 0 0 (-10000)) ∧
    Authorize seedState testClock 168 1 "4111111111111111" "123" 2000000
      = .error (.typed .insufficientFunds) := by
  have h := C5_authorize_checks seedState testClock 168 1 "4111111111111111" "123" 10000
  have h2 := C5_authorize_checks seedState testClock 168 1 "4111111111111111" "123" 2000000
  constructor
  · exact (h.2.2.2.2.1 seedAccount (by decide) (by decide) (by decide) (by decide)).2.2.2
      rfl (by decide) (by decide) (by decide)
  · exact (h2.2.2.2.2.1 seedAccount (by decide) (by decide) (by decide)
      (by decide)).2.2.1 rfl (by decide) (by decide)

/-- C1: starting from a provisioning-time state (empty ledger), after
every sequence of successful Authorize / Capture / Void / Refund
operations, each account's sum of signed posted ledger deltas equals its
current minus initial posted balance, and its sum of signed available
deltas equals its current minus initial available balance. -/
theorem C1_ledger_sum_invariant (s₀ s : DBState) (hseed : s₀.transactions = [])
    (h : Reachable s₀ s) (aid : Nat) :
    ledgerPostedSum s.transactions aid = balanceOf s aid - balanceOf s₀ aid ∧
    ledgerAvailableSum s.transactions aid = availableOf s aid - availableOf s₀ aid := by
  obtain ⟨h₁, h₂⟩ := Reachable_sums h aid
  rw [hseed] at h₁ h₂
  have e₁ : ledgerPostedSum [] aid = 0 := rfl
  have e₂ : ledgerAvailableSum [] aid = 0 := rfl
  omega

/-- Witness for C1: one authorization step from the seeded database. -/
theorem C1_ledger_sum_invariant_witness :
    ledgerPostedSum afterAuthState.transactions 0
      = balanceOf afterAuthState 0 - balanceOf seedState 0 ∧
    ledgerAvailableSum afterAuthState.transactions 0
      = availableOf afterAuthState 0 - availableOf seedState 0 :=
  C1_ledger_sum_invariant seedState afterAuthState rfl
    (Relation.ReflTransGen.single
      (Step.authorize seedState testClock 168 1 "4111111111111111" "123" 10000
        seedHold afterAuthState rfl)) 0

/-! ## Round trips (C2) -/

theorem find?_append_fresh (ts : List Txn) (t : Txn)
    (hfresh : (ts.any fun u => u.id == t.id) = false) :
    (ts ++ [t]).find? (fun u => u.id == t.id) = some t := by
  rw [List.find?_append]
  have hnone : ts.find? (fun u => u.id == t.id) = none := by
    rw [List.find?_eq_none]
    intro u hu
    simpa using List.any_eq_false.mp hfresh u hu
  rw [hnone]
  simp

theorem find?_setStatusRow_append_fresh (ts : List Txn) (k : Nat) (st : TxnStatus)
    (t : Txn) (hfresh : (ts.any fun u => u.id == t.id) = false) :
    (ts.map (setStatusRow k st) ++ [t]).find? (fun u => u.id == t.id) = some t := by
  rw [List.find?_append, find?_id_map_setStatusRow]
  have hnone : ts.find? (fun u => u.id == t.id) = none := by
    rw [List.find?_eq_none]
    intro u hu
    simpa using List.any_eq_false.mp hfresh u hu
  rw [hnone]
  simp

/-- C2: a successful Authorize followed by a successful Void of that
authorization restores every account's posted and available balances
exactly; so does a successful Authorize, then a successful Capture of that
authorization, then a successful Refund of that capture. -/
theorem C2_roundtrip_balances :
    (∀ (s : DBState) (clk : Clock) (hours : Int) (n₁ n₂ : Nat) (card cvv : String)
        (m : Int) (t₁ t₂ : Txn) (s₁ s₂ : DBState),
      Authorize s clk hours n₁ card cvv m = .ok (t₁, s₁) →
      performVoid s₁ n₂ t₁.id = .ok (t₂, s₂) →
      s₂.accounts = s.accounts) ∧
    (∀ (s : DBState) (clk clk' : Clock) (hours : Int) (n₁ n₂ n₃ : Nat)
        (card cvv : String) (m a₂ a₃ : Int) (t₁ t₂ t₃ : Txn) (s₁ s₂ s₃ : DBState),
      Authorize s clk hours n₁ card cvv m = .ok (t₁, s₁) →
      performCapture s₁ clk' n₂ t₁.id a₂ = .ok (t₂, s₂) →
      performRefund s₂ n₃ t₂.id a₃ = .ok (t₃, s₃) →
      s₃.accounts = s.accounts) := by
  constructor
  · intro s clk hours n₁ n₂ card cvv m t₁ t₂ s₁ s₂ hauth hvoid
    obtain ⟨acct, -, -, -, -, -, -, -, ht1, hfresh, -, htxn1, hacc1⟩ := Authorize_ok hauth
    obtain ⟨authTxn, hfind2, -, -, -, -, -, -, -, -, hacc2⟩ := performVoid_ok hvoid
    have hfreshid : (s.transactions.any fun u => u.id == t₁.id) = false := by
      rw [ht1]
      exact hfresh
    have hfind1 : findTransactionByID s₁ t₁.id = some t₁ := by
      unfold findTransactionByID
      rw [htxn1]
      exact find?_append_fresh s.transactions t₁ hfreshid
    rw [hfind1] at hfind2
    cases hfind2
    have haid : t₁.accountId = acct.id := by rw [ht1]
    have hamt : t₁.amountCents = m := by rw [ht1]
    rw [hacc2, hacc1, haid, hamt, adjustList_adjustList]
    simpa using adjustList_zero s.accounts acct.id
  · intro s clk clk' hours n₁ n₂ n₃ card cvv m a₂ a₃ t₁ t₂ t₃ s₁ s₂ s₃ hauth hcap href
    obtain ⟨acct, -, -, -, -, -, -, -, ht1, hfresh, -, htxn1, hacc1⟩ := Authorize_ok hauth
    obtain ⟨authTxn, hfind2, -, -, -, hamt2, ht2, hfresh2, -, -, -, htxn2, hacc2⟩ :=
      performCapture_ok hcap
    obtain ⟨capTxn, hfind3, -, -, hamt3, -, -, -, -, -, hacc3⟩ := performRefund_ok href
    have hfreshid : (s.transactions.any fun u => u.id == t₁.id) = false := by
      rw [ht1]
      exact hfresh
    have hfind1 : findTransactionByID s₁ t₁.id = some t₁ := by
      unfold findTransactionByID
      rw [htxn1]
      exact find?_append_fresh s.transactions t₁ hfreshid
    rw [hfind1] at hfind2
    cases hfind2
    have hfresh2id : (s₁.transactions.any fun u => u.id == t₂.id) = false := by
      rw [ht2]
      exact hfresh2
    have hfind2' : findTransactionByID s₂ t₂.id = some t₂ := by
      unfold findTransactionByID
      rw [htxn2]
      exact find?_setStatusRow_append_fresh s₁.transactions t₁.id .completed _ hfresh2id
    rw [hfind2'] at hfind3
    cases hfind3
    have haid2 : t₂.accountId = t₁.accountId := by rw [ht2]
    have hamt2' : t₂.amountCents = a₂ := by rw [ht2]
    have haid1 : t₁.accountId = acct.id := by rw [ht1]
    have hamt1 : t₁.amountCents = m := by rw [ht1]
    have ham3 : a₃ = m := by rw [hamt3, hamt2', hamt2, hamt1]
    have ham2 : a₂ = m := by rw [hamt2, hamt1]
    rw [hacc3, hacc2, hacc1, haid2, haid1, ham3, ham2,
      adjustList_adjustList, adjustList_adjustList]
    simpa using adjustList_zero s.accounts acct.id

/-- The VOID child created by voiding `seedHold`. -/
def voidRow : Txn :=
  { id := 2, accountId := 0, type := .void, amountCents := 10000,
    currency := "USD", referenceId := some 1, status := .completed,
    expiresAt := none }

/-- `afterAuthState` after voiding the hold. -/
def afterVoidState : DBState :=
  { accounts := [seedAccount],
    transactions := [{ seedHold with status := .completed }, voidRow] }

/-- `afterAuthState` after capturing the hold. -/
def afterCaptureState : DBState :=
  { accounts :=
      [{ seedAccount with balanceCents := 990000, availableBalanceCents := 990000 }],
    transactions := [{ seedHold with status := .completed }, seedCapture] }

/-- The REFUND child created by refunding `seedCapture`. -/
def refundRow : Txn :=
  { id := 3, accountId := 0, type := .refund, amountCents := 10000,
    currency := "USD", referenceId := some 2, status := .completed,
    expiresAt := none }

/-- `afterCaptureState` after refunding the capture. -/
def afterRefundState : DBState :=
  { accounts := [seedAccount],
    transactions := [{ seedHold with status := .completed }, seedCapture, refundRow] }

/-- Witness for C2: both round trips run concretely on the seed account
and restore its balances. -/
theorem C2_roundtrip_balances_witness :
    afterVoidState.accounts = seedState.accounts ∧
    afterRefundState.accounts = seedState.accounts := by
  constructor
  · exact C2_roundtrip_balances.1 seedState testClock 168 1 2 "4111111111111111"
      "123" 10000 seedHold voidRow afterAuthState afterVoidState rfl rfl
  · exact C2_roundtrip_balances.2 seedState testClock testClock 168 1 2 3
      "4111111111111111" "123" 10000 10000 10000 seedHold seedCapture refundRow
      afterAuthState afterCaptureState afterRefundState rfl rfl rfl

/-- C3: N > 1 capture requests against the same capturable authorization,
serialized by the row lock, produce exactly one 200 — the first to
serialize — while every later request maps to HTTP 400 with a code among
`already_captured` / `authorization_already_used`, and the account's
posted balance decreases by exactly one capture amount. -/
theorem C3_concurrent_captures (s : DBState) (clk : Clock) (authId nid : Nat)
    (rest : List Nat) (t₀ : Txn)
    (hfind : findTransactionByID s authId = some t₀)
    (hty : t₀.type = .authHold) (hst : t₀.status = .active)
    (hexp : holdExpired t₀.expiresAt clk = false)
    (hfresh : (s.transactions.any fun u => u.id == nid) = false)
    (hnodup : (s.transactions.any fun u =>
        u.referenceId == some authId && u.type == .capture) = false)
    (hacct : (s.accounts.any fun a => a.id == t₀.accountId) = true) :
    ((runCaptures clk authId t₀.amountCents s (nid :: rest)).1.map createCaptureStatus
        = 200 :: List.replicate rest.length 400) ∧
    (∀ e, Except.error e ∈ (runCaptures clk authId t₀.amountCents s (nid :: rest)).1 →
      (handleCaptureError e).1 = 400 ∧
      ((handleCaptureError e).2 = "already_captured" ∨
        (handleCaptureError e).2 = "authorization_already_used")) ∧
    balanceOf (runCaptures clk authId t₀.amountCents s (nid :: rest)).2 t₀.accountId
      = balanceOf s t₀.accountId - t₀.amountCents := by
  have hsucc := performCapture_success hfind hty hst hexp hfresh hnodup hacct
  have hfind' : s.transactions.find? (fun t => t.id == authId) = some t₀ := hfind
  have hid₀ : (t₀.id == authId) = true := by
    have h := List.find?_some hfind'
    simpa using h
  have hfind₁ : findTransactionByID
      ({ accounts := adjustList s.accounts t₀.accountId (-t₀.amountCents) 0,
         transactions :=
           List.map (setStatusRow authId .completed)
             (s.transactions ++
              [({ id := nid, accountId := t₀.accountId, type := .capture,
                  amountCents := t₀.amountCents, currency := t₀.currency,
                  referenceId := some authId, status := .completed,
                  expiresAt := none } : Txn)]) } : DBState) authId
      = some { t₀ with status := .completed } := by
    unfold findTransactionByID
    rw [find?_id_map_setStatusRow, List.find?_append]
    unfold findTransactionByID at hfind
    rw [hfind]
    simp [setStatusRow, hid₀]
  have hrun : runCaptures clk authId t₀.amountCents s (nid :: rest)
      = (Except.ok
            ({ id := nid, accountId := t₀.accountId, type := .capture,
               amountCents := t₀.amountCents, currency := t₀.currency,
               referenceId := some authId, status := .completed,
               expiresAt := none } : Txn)
          :: List.replicate rest.length (.error (.typed .authorizationAlreadyUsed)),
         { accounts := adjustList s.accounts t₀.accountId (-t₀.amountCents) 0,
           transactions :=
             List.map (setStatusRow authId .completed)
               (s.transactions ++
                [({ id := nid, accountId := t₀.accountId, type := .capture,
                    amountCents := t₀.amountCents, currency := t₀.currency,
                    referenceId := some authId, status := .completed,
                    expiresAt := none } : Txn)]) }) := by
    unfold runCaptures
    rw [hsucc]
    dsimp only
    rw [runCaptures_completed hfind₁ (by simpa using hty) rfl rest]
  refine ⟨?_, ?_, ?_⟩
  · rw [hrun]
    simp [createCaptureStatus, handleCaptureError, List.map_replicate]
  · intro e he
    rw [hrun] at he
    simp only [List.mem_cons] at he
    rcases he with he | he
    · cases he
    · have : Except.error e
          = (Except.error (.typed .authorizationAlreadyUsed) : Except SvcError Txn) :=
        List.eq_of_mem_replicate he
      cases this
      exact ⟨rfl, Or.inr rfl⟩
  · rw [hrun]
    unfold balanceOf
    dsimp only
    rw [acctBalance_adjustList]
    have hsome : (s.accounts.find? fun a => a.id == t₀.accountId).isSome := by
      rw [List.find?_isSome]
      exact List.any_eq_true.mp hacct
    simp [hsome]
    omega

/-- Witness for C3: two serialized captures of the seed hold — the first
returns 200, the second 400 `authorization_already_used`, and the posted
balance drops by exactly 10000. -/
theorem C3_concurrent_captures_witness :
    ((runCaptures testClock 1 10000 afterAuthState [2, 3]).1.map createCaptureStatus
        = [200, 400]) ∧
    balanceOf (runCaptures testClock 1 10000 afterAuthState [2, 3]).2 0
      = balanceOf afterAuthState 0 - 10000 := by
  have h := C3_concurrent_captures afterAuthState testClock 1 2 [3] seedHold
    (by decide) rfl rfl (by decide) (by decide) (by decide) (by decide)
  exact ⟨h.1, h.2.2⟩

/-- An account satisfying `available ≤ balance` whose ledger already
carries an ACTIVE hold the balances do not reflect. -/
def trickyAccount : Account :=
  { accountNumber := "4242424242424242", cvv := "456", expiryMonth := 6,
    expiryYear := 2030, balanceCents := 100, availableBalanceCents := 100,
    id := 0 }

/-- An ACTIVE unexpired hold of 100 cents on `trickyAccount`. -/
def trickyHold : Txn :=
  { id := 1, accountId := 0, type := .authHold, amountCents := 100,
    currency := "USD", referenceId := none, status := .active, expiresAt := none }

/-- A seed state satisfying `available ≤ balance` on every account. -/
def trickyState : DBState :=
  { accounts := [trickyAccount], transactions := [trickyHold] }

/-- The CAPTURE child a capture of `trickyHold` inserts. -/
def trickyCapture : Txn :=
  { id := 2, accountId := 0, type := .capture, amountCents := 100,
    currency := "USD", referenceId := some 1, status := .completed,
    expiresAt := none }

/-- `trickyState` after capturing the hold: balance 0, available 100. -/
def trickyCapturedState : DBState :=
  { accounts := [{ trickyAccount with balanceCents := 0 }],
    transactions := [{ trickyHold with status := .completed }, trickyCapture] }

/-- Counterexample to C6 as stated: `trickyState` satisfies
`available ≤ balance` on every account, one successful Capture step leads
to `trickyCapturedState`, and there the account has available 100 >
balance 0. The bare inequality is not inductive over arbitrary seed
states; it needs the seed's balances to account for the ledger's
outstanding holds. -/
theorem C6_counterexample :
    (∀ a ∈ trickyState.accounts, a.availableBalanceCents ≤ a.balanceCents) ∧
    Step trickyState trickyCapturedState ∧
    ¬ (∀ a ∈ trickyCapturedState.accounts,
        a.availableBalanceCents ≤ a.balanceCents) := by
  refine ⟨by decide,
    Step.capture trickyState testClock 2 1 100 trickyCapture trickyCapturedState rfl,
    by decide⟩

/-- C6 (amended): `available_balance_cents ≤ balance_cents` holds in every
state reachable by Authorize / Capture / Void / Refund from a seed state
in which every account's available balance is at most its posted balance
minus the sum of its ACTIVE AUTH_HOLD amounts and every ACTIVE AUTH_HOLD
amount is nonnegative — in particular from any seed with an empty ledger
and `available ≤ balance`, such as the migration's. -/
theorem C6_available_le_balance_amended (s₀ s : DBState)
    (hseed : StrongInv s₀) (h : Reachable s₀ s) :
    ∀ a ∈ s.accounts, a.availableBalanceCents ≤ a.balanceCents := by
  obtain ⟨hbal, hpos⟩ := StrongInv_reachable h hseed
  intro a ha
  have h1 := hbal a ha
  have h2 := holdSum_nonneg s.transactions a.id hpos
  omega

/-- Witness for C6 (amended): the migration seed, one authorization in —
the seed account still satisfies available ≤ balance. -/
theorem C6_available_le_balance_amended_witness :
    ({ seedAccount with availableBalanceCents := 990000 } : Account).availableBalanceCents
      ≤ ({ seedAccount with availableBalanceCents := 990000 } : Account).balanceCents :=
  C6_available_le_balance_amended seedState afterAuthState
    (by unfold StrongInv; exact ⟨by decide, by decide⟩)
    (Relation.ReflTransGen.single
      (Step.authorize seedState testClock 168 1 "4111111111111111" "123" 10000
        seedHold afterAuthState rfl))
    { seedAccount with availableBalanceCents := 990000 } (by decide)

end Bank
